import Mathlib

/-!
Verification development for the recipe RAG pipeline in `backend/rag_core.py`.

The Python module is shallowly embedded: each Python function used by the
claims is translated into an executable Lean definition of the same name
(camel-cased).  Python strings are modelled as `String` / `List Char`;
`str.strip`, `str.lower`, slicing and the regular-expression operations are
modelled over ASCII, which covers every string manipulated by the module.
Similarity scores (floats in the source) are modelled as rationals.

The optional spaCy dependency (`get_spacy`) is modelled as absent, i.e.
`get_spacy()` returns `None`, which is the documented fallback of the source
(`# spaCy (optional) - loaded lazily`); the noun-chunk pass is therefore the
verb-based heuristic, exactly as in the source when spaCy is not installed.
The external generative-model collaborator of `format_with_gemini` is a
parameter `collab : String → String → Except Unit String` mapping a model
name and prompt to either a raised exception (`.error`) or a response text.
-/

set_option maxRecDepth 40000

/-- Apostrophe character, kept out of string literals. -/
def aposC : Char := Char.ofNat 39

/-- Apostrophe as a one-character string. -/
def aposS : String := String.mk [aposC]

/-- ASCII whitespace, the characters Python `str.strip`/`\s` treat as space:
space, tab, newline, carriage return, vertical tab, form feed. -/
def isWsPy (c : Char) : Bool :=
  c = ' ' || c = '\t' || c = '\n' || c = '\r' || c = Char.ofNat 11 || c = Char.ofNat 12

/-- Python `\w`: ASCII letters, digits and underscore. -/
def isWordCh (c : Char) : Bool :=
  ('a' ≤ c && c ≤ 'z') || ('A' ≤ c && c ≤ 'Z') || ('0' ≤ c && c ≤ '9') || c = '_'

/-- ASCII lowercase letter test. -/
def isLowerCh (c : Char) : Bool := 'a' ≤ c && c ≤ 'z'

/-- ASCII uppercase letter test. -/
def isUpperCh (c : Char) : Bool := 'A' ≤ c && c ≤ 'Z'

/-- ASCII letter test. -/
def isAlphaCh (c : Char) : Bool := isLowerCh c || isUpperCh c

/-- ASCII digit test. -/
def isDigitCh (c : Char) : Bool := '0' ≤ c && c ≤ '9'

/-- ASCII `str.lower` on one character. -/
def lowerCh (c : Char) : Char :=
  if isUpperCh c then Char.ofNat (c.toNat + 32) else c

/-- ASCII `str.lower` on a character list. -/
def lowerL (l : List Char) : List Char := l.map lowerCh

/-- Drop trailing characters satisfying `p`. -/
def dropEndWhile (p : Char → Bool) (l : List Char) : List Char :=
  (l.reverse.dropWhile p).reverse

/-- Python `str.strip()` over ASCII whitespace. -/
def stripL (l : List Char) : List Char :=
  dropEndWhile isWsPy (l.dropWhile isWsPy)

/-- Python `str.strip(chars)`: strip any of the given characters from both ends. -/
def stripSetL (cs : List Char) (l : List Char) : List Char :=
  dropEndWhile (cs.contains ·) (l.dropWhile (cs.contains ·))

/-- Python `str.lstrip(chars)`. -/
def lstripSetL (cs : List Char) (l : List Char) : List Char :=
  l.dropWhile (cs.contains ·)

/-- Case-insensitive (ASCII) prefix test: does `l` start with `p`? -/
def ciStartsWith (l p : List Char) : Bool :=
  lowerL p |>.isPrefixOf (lowerL l)

/-- Substring containment (Python `needle in hay`). -/
def containsSubL (hay needle : List Char) : Bool :=
  match hay with
  | [] => needle.isEmpty
  | _ :: t => needle.isPrefixOf hay || containsSubL t needle

/-- Case-insensitive substring containment. -/
def ciContainsSub (hay needle : List Char) : Bool :=
  containsSubL (lowerL hay) (lowerL needle)

/-- Python `str.split(sep)` for a one-character separator; keeps empty parts
(`"".split(c) == [""]`). -/
def splitOnCh (sep : Char) : List Char → List (List Char)
  | [] => [[]]
  | c :: cs =>
    if c = sep then [] :: splitOnCh sep cs
    else
      match splitOnCh sep cs with
      | p :: ps => (c :: p) :: ps
      | [] => [[c]]

/-- Join pieces with a one-character separator (inverse of `splitOnCh`). -/
def joinWithCh (sep : Char) : List (List Char) → List Char
  | [] => []
  | [p] => p
  | p :: ps => p ++ sep :: joinWithCh sep ps

/-- Python `str.split()` with no argument: whitespace-separated tokens,
empty tokens discarded. -/
def splitWsL : List Char → List (List Char)
  | [] => []
  | c :: cs =>
    if isWsPy c then splitWsL cs
    else
      match splitWsL cs with
      | [] => [[c]]
      | p :: ps =>
        match cs with
        | [] => [[c]]
        | d :: _ => if isWsPy d then [c] :: p :: ps else (c :: p) :: ps

/-- Maximal runs of `\w` characters (used to decide `\b`-delimited word
matches of purely alphanumeric regex alternatives). -/
def wordTokens : List Char → List (List Char)
  | [] => []
  | c :: cs =>
    if isWordCh c then
      match wordTokens cs with
      | [] => [[c]]
      | p :: ps =>
        match cs with
        | [] => [[c]]
        | d :: _ => if isWordCh d then (c :: p) :: ps else [c] :: p :: ps
    else wordTokens cs

/-- Python `str.splitlines()` restricted to `\n`, `\r\n` and `\r` breaks
(no trailing empty piece; `"".splitlines() == []`). -/
def splitLinesPy : List Char → List (List Char)
  | [] => []
  | '\r' :: '\n' :: cs => [] :: splitLinesPy cs
  | '\r' :: cs => [] :: splitLinesPy cs
  | '\n' :: cs => [] :: splitLinesPy cs
  | c :: cs =>
    match splitLinesPy cs with
    | [] => [[c]]
    | p :: ps => (c :: p) :: ps

/-- String-level wrappers. -/
def pyStrip (s : String) : String := ⟨stripL s.data⟩

/-- Python `str.lower` on a `String` (ASCII). -/
def pyLower (s : String) : String := ⟨lowerL s.data⟩

/-- Python `len` on a string (character count). -/
def pyLen (s : String) : Nat := s.data.length

/-- Substring containment on `String`s. -/
def containsSubS (hay needle : String) : Bool := containsSubL hay.data needle.data

/-- Case-insensitive `str.startswith` on `String`s. -/
def ciStartsWithS (l p : String) : Bool := ciStartsWith l.data p.data

/-- Number of whitespace-separated tokens, Python `len(s.split())`. -/
def numTokens (s : String) : Nat := (splitWsL s.data).length

-- Sanity checks for the primitives.
example : pyStrip "  a b \n" = "a b" := by decide
example : splitOnCh '\n' "a\nb".data = ["a".data, "b".data] := by decide
example : splitOnCh '\n' "".data = [[]] := by decide
example : splitWsL "  a bc  d ".data = ["a".data, "bc".data, "d".data] := by decide
example : wordTokens "ab, c9-d".data = [['a', 'b'], ['c', '9'], ['d']] := by decide
example : ciStartsWith "CakeX".data "cake".data = true := by decide
example : containsSubS "hello" "ell" = true := by decide
example : containsSubS "hello" "elo" = false := by decide
example : splitLinesPy "a\nb\n".data = ["a".data, "b".data] := by decide
example : numTokens "Gently pour one cup sugar into bowl now." = 8 := by decide

/-!
Embedded pattern library (module-level compiled regexes of `rag_core.py`).
Every alternative of the word-bounded patterns is a pure `\w`-run, so a
`\b(...)\b` search is equivalent to membership of some maximal word token
in the alternative list; the one non-word alternative (`°` and its
variants in the time/temperature pattern) is handled separately below.
-/

/-- Does some maximal word token of `s`, lowercased, belong to `words`
(the `\b(?:w1|w2|...)\b` search for all-word alternatives)? -/
def tokenMatch (words : List String) (s : String) : Bool :=
  (wordTokens s.data).any (fun t => words.any (fun w => lowerL t = w.data))

/-- Scan for an occurrence of `needle` in `hay` (both already lowercased by
the caller when the pattern is case-insensitive), requiring a word boundary
before the occurrence when `needB` and after it when `needE`.  All needles
used start and end with word characters, for which `\b` before means the
previous character is absent or not a word character, and `\b` after means
the following character is absent or not a word character. -/
def occursBounded (needB needE : Bool) : Option Char → List Char → List Char → Bool
  | _, [], _ => false
  | prev, c :: t, needle =>
    ((!needB || (match prev with | none => true | some p => !isWordCh p)) &&
      needle.isPrefixOf (c :: t) &&
      (!needE ||
        (match (c :: t).drop needle.length with
         | [] => true
         | d :: _ => !isWordCh d)))
    || occursBounded needB needE (some c) t needle

/-- Occurrence with a word boundary on both sides. -/
def occursWW (hay needle : List Char) : Bool := occursBounded true true none hay needle

/-- Occurrence with a word boundary after it only (the pattern alternatives
written without a leading `\b`, such as `vitamin\b`). -/
def occursEndB (hay needle : List Char) : Bool := occursBounded false true none hay needle

/-- Word vocabulary of `UNIT_PATTERN` (line 31). -/
def unitWordsUP : List String :=
  ["cup", "cups", "tbsp", "tbs", "tsp", "tablespoon", "tablespoons", "teaspoon",
   "teaspoons", "gram", "g", "kg", "ml", "l", "oz", "ounce", "ounces", "pound",
   "pounds", "lb", "lbs", "slice", "slices", "clove", "cloves", "inch", "buah",
   "siung", "biji", "lembar", "potong"]

/-- `UNIT_PATTERN.search(s)` (case-insensitive whole-word unit search). -/
def unitSearch (s : String) : Bool := tokenMatch unitWordsUP s

/-- Word vocabulary of `TIME_TEMPERATURE_PATTERN` (line 32), except the
degree-sign alternatives. -/
def timeTempWords : List String :=
  ["minute", "minutes", "min", "hour", "hours", "hr", "sec", "second", "seconds",
   "degree", "degrees", "celsius", "fahrenheit", "oven", "bake", "preheat",
   "roast", "simmer", "broil"]

/-- Degree-sign clause of `TIME_TEMPERATURE_PATTERN`: the alternative `°`
matches when the sign has a word character on both sides (the `°c`/`°f`
alternatives are subsumed, since a following `c`/`f` is itself a word
character and already satisfies the bare `°` alternative). -/
def degreeSearch : Option Char → List Char → Bool
  | _, [] => false
  | prev, c :: t =>
    (c = '°' &&
      (match prev with | none => false | some p => isWordCh p) &&
      (match t with | [] => false | d :: _ => isWordCh d))
    || degreeSearch (some c) t

/-- `TIME_TEMPERATURE_PATTERN.search(s)`. -/
def timeTempSearch (s : String) : Bool :=
  tokenMatch timeTempWords s || degreeSearch none s.data

/-- `NUTRITION_HINTS.search(s)` (lines 33-36), alternative by alternative in
source order: `%`, `vitamin\b`, `kcal\b`, `calorie`, `calories`, `kj\b`,
`mg\b`, `per serving`, `serving`, then the fully word-bounded macro names
including `\bsugars?\b`. -/
def nutritionSearch (s : String) : Bool :=
  let ls := lowerL s.data
  containsSubL ls ['%'] ||
  occursEndB ls "vitamin".data ||
  occursEndB ls "kcal".data ||
  containsSubL ls "calorie".data ||
  containsSubL ls "calories".data ||
  occursEndB ls "kj".data ||
  occursEndB ls "mg".data ||
  containsSubL ls "per serving".data ||
  containsSubL ls "serving".data ||
  occursWW ls "protein".data ||
  occursWW ls "fat".data ||
  occursWW ls "saturated fat".data ||
  occursWW ls "cholesterol".data ||
  occursWW ls "sodium".data ||
  occursWW ls "carbohydrate".data ||
  occursWW ls "fiber".data ||
  occursWW ls "sugar".data || occursWW ls "sugars".data ||
  occursWW ls "iron".data ||
  occursWW ls "potassium".data ||
  occursWW ls "calcium".data

/-- Verb vocabulary of `VERB_PHRASES` (lines 61-64). -/
def verbPhraseWords : List String :=
  ["peel", "core", "muddle", "melt", "invert", "place", "fold", "mix", "stir",
   "add", "combine", "whisk", "beat", "pour", "spread", "slice", "dice", "chop",
   "cut", "press", "roll", "bake", "cook", "heat", "boil", "simmer", "fry",
   "roast", "preheat", "remove", "brush", "lay", "set", "serve", "garnish"]

/-- `VERB_PHRASES.match(s)`: anchored at the start, so the string must begin
with one of the verbs followed by a word boundary. -/
def verbPhrasesMatch (s : String) : Bool :=
  let ls := lowerL s.data
  verbPhraseWords.any (fun v =>
    v.data.isPrefixOf ls &&
    (match ls.drop v.data.length with
     | [] => true
     | d :: _ => !isWordCh d))

/-- The cooking-verb search of the consolidation stage (line 376):
`\b(?:add|stir|mix|combine|fold|press|cut|roll|preheat|bake|cook|bring|reduce|remove|brush)\b`. -/
def consolidationVerbSearch (s : String) : Bool :=
  tokenMatch
    ["add", "stir", "mix", "combine", "fold", "press", "cut", "roll", "preheat",
     "bake", "cook", "bring", "reduce", "remove", "brush"] s

/-- `KITCHEN_TOOLS` (lines 65-68), used with plain substring tests. -/
def kitchenTools : List String :=
  ["pan", "pot", "saucepan", "bowl", "sheet", "baking sheet", "plate", "dish",
   "spoon", "fork", "knife", "glass", "cup", "container", "mixer", "blender",
   "skillet", "oven", "tray"]

/-- `any(tool in s for tool in KITCHEN_TOOLS)` where `s` is already lowered
by the caller in the source. -/
def kitchenToolHit (s : String) : Bool :=
  kitchenTools.any (fun t => containsSubS s t)

-- Sanity checks against Python regex behaviour.
example : unitSearch "2 cups flour" = true := by decide
example : unitSearch "2cups flour" = false := by decide
example : timeTempSearch "bake at 350F" = true := by decide
example : timeTempSearch "100°C now" = true := by decide
example : timeTempSearch "° alone" = false := by decide
example : nutritionSearch "multivitamin boost" = true := by decide
example : nutritionSearch "sugary treat" = false := by decide
example : nutritionSearch "Sugars 5" = true := by decide
example : verbPhrasesMatch "Mix the flour" = true := by decide
example : verbPhrasesMatch "Mixing bowl" = false := by decide

/-!
Language detection (`detect_language`, lines 120-138) and the text cleaner
(`clean_garbage_text`, lines 144-169).
-/

/-- Keyword list of `detect_language`; hits are plain substring tests. -/
def indonesianKeywords : List String :=
  ["resep", "cara", "membuat", "memasak", "bahan", "apa", "bagaimana",
   "dengan", "untuk", "yang", "dan", "adalah", "ini", "itu"]

/-- Secondary marker words of `detect_language`, matched as whole words. -/
def indonesianMarkerWords : List String :=
  ["apa", "tolong", "tolonglah", "silakan", "saya", "kamu", "kue", "nasi", "goreng"]

/-- `detect_language(query)`. -/
def detectLanguage (query : String) : String :=
  let ql : String := pyLower query
  if indonesianKeywords.any (fun w => containsSubS ql w) then "indonesian"
  else if tokenMatch indonesianMarkerWords ql then "indonesian"
  else "english"

/-- Section labels removed at the very start of the text (line 153). -/
def sectionLabels : List String :=
  ["Cara Memasak", "Cara Membuat", "Instructions", "Steps", "Method", "Directions"]

/-- Anchored substitution `^(labels)[:\s\-]*` with `''` (line 154): if a label
is a case-insensitive prefix, drop it together with the following run of
colons, dashes and whitespace; otherwise leave the text unchanged. -/
def labelCutL (l : List Char) : List Char :=
  match sectionLabels.find? (fun lab => ciStartsWith l lab.data) with
  | none => l
  | some lab => (l.drop lab.data.length).dropWhile (fun c => c = ':' || c = '-' || isWsPy c)

/-- Credit markers of line 157. -/
def creditMarkers : List String := ["Dotdash Meredith", "Allrecipes", "Food Studios"]

/-- Is the first newline of `l` also its last character (or absent)?  This is
when `.*$` can reach a valid `$` position from the start of `l` in a
single-line-mode pattern. -/
def nlTailOk (l : List Char) : Bool :=
  match l.findIdx? (· = '\n') with
  | none => true
  | some j => j + 1 = l.length

/-- Substitution `(Dotdash Meredith|Allrecipes|Food Studios).*$` with `''`
(line 157): scanning left to right, the first position where a credit marker
starts and the rest of the string contains no newline (except a final one)
begins the match; everything from there to the end of that line is removed. -/
def creditCutL : List Char → List Char
  | [] => []
  | c :: t =>
    if creditMarkers.any (fun m => ciStartsWith (c :: t) m.data) && nlTailOk (c :: t) then
      if (c :: t).contains '\n' then ['\n'] else []
    else c :: creditCutL t

/-- Anchored substitution `^\d+[\.\)]\s*` with `''` used for the dedup key
(line 164): strip one leading enumeration marker. -/
def stripLeadingNum (l : List Char) : List Char :=
  match l.takeWhile isDigitCh with
  | [] => l
  | ds =>
    match l.drop ds.length with
    | c :: r2 => if c = '.' || c = ')' then r2.dropWhile isWsPy else l
    | [] => l

/-- Order-preserving deduplication by a key, first occurrence wins. -/
def dedupByKey (key : List Char → List Char) : List (List Char) → List (List Char) → List (List Char)
  | _, [] => []
  | seen, l :: ls =>
    if seen.contains (key l) then dedupByKey key seen ls
    else l :: dedupByKey key (key l :: seen) ls

/-- Line-deduplication stage of `clean_garbage_text` (lines 160-169): strip
each line, drop empties, deduplicate by the lowercased line with a leading
enumeration marker removed, and rejoin with newlines. -/
def dedupLinesStageL (l : List Char) : List Char :=
  let lines := ((splitOnCh '\n' l).map stripL).filter (· ≠ [])
  joinWithCh '\n' (dedupByKey (fun x => stripLeadingNum (lowerL x)) [] lines)

/-- `clean_garbage_text(text, title)` (lines 144-169). -/
def cleanGarbageText (text title : String) : String :=
  let c0 := stripL text.data
  let c1 :=
    if ciStartsWith c0 title.data then
      stripSetL [' ', '.', ':', '-'] (c0.drop title.data.length)
    else c0
  let c2 := stripL (labelCutL c1)
  let c3 := stripL (creditCutL c2)
  ⟨dedupLinesStageL c3⟩

/-!
Nutrition extraction (`extract_nutrition_info`, lines 37-59).
-/

/-- One alternative of the secondary nutrition regex (line 49) of the form
`\d+\s*LIT`: at the current position (which must have a word boundary before
it, i.e. no preceding word character) one or more digits, optional
whitespace, the literal, then a closing word boundary.  When the literal
ends in a word character the boundary needs a following non-word character
or the end; for the `%` literal it needs a following word character. -/
def numUnitHere (lit : List Char) (litWordEnd : Bool) (l : List Char) : Bool :=
  match l.takeWhile isDigitCh with
  | [] => false
  | ds =>
    let rest := (l.drop ds.length).dropWhile isWsPy
    lit.isPrefixOf rest &&
    (match rest.drop lit.length with
     | [] => litWordEnd
     | d :: _ => if litWordEnd then !isWordCh d else isWordCh d)

/-- Scan of the `\d+\s*mg|\d+\s*kJ|\d+\s*%` alternatives over a lowered line. -/
def numUnitSearch : Option Char → List Char → Bool
  | _, [] => false
  | prev, c :: t =>
    ((match prev with | none => true | some p => !isWordCh p) &&
      (numUnitHere "mg".data true (c :: t) ||
       numUnitHere "kj".data true (c :: t) ||
       numUnitHere ['%'] false (c :: t)))
    || numUnitSearch (some c) t

/-- Scan of the `vitamin [a-z]|vitamin [A-Z]` alternatives over a lowered
line: `vitamin`, a space, one letter, all word-bounded. -/
def vitaminLetterSearch : Option Char → List Char → Bool
  | _, [] => false
  | prev, c :: t =>
    ((match prev with | none => true | some p => !isWordCh p) &&
      "vitamin ".data.isPrefixOf (c :: t) &&
      (match (c :: t).drop 8 with
       | [] => false
       | d :: rest =>
         isLowerCh d &&
         (match rest with | [] => true | e :: _ => !isWordCh e)))
    || vitaminLetterSearch (some c) t

/-- The secondary nutrition regex of line 49, on one line. -/
def nutLine2 (ln : List Char) : Bool :=
  let ls := lowerL ln
  occursWW ls "calories".data || occursWW ls "calorie".data ||
  occursWW ls "kcal".data ||
  vitaminLetterSearch none ls ||
  numUnitSearch none ls

/-- `extract_nutrition_info(text)` (lines 37-59). -/
def extractNutritionInfo (text : String) : List String :=
  let lines := ((splitLinesPy text.data).map stripL).filter (· ≠ [])
  let nutrition := lines.filter (fun ln => nutritionSearch ⟨ln⟩ || nutLine2 ln)
  (dedupByKey lowerL [] nutrition).map String.mk

-- Sanity checks.
example : detectLanguage "resep kue coklat" = "indonesian" := by decide
example : detectLanguage "hello" = "english" := by decide
example : detectLanguage "chocolate" = "english" := by decide
example : cleanGarbageText "CakeCake hello" "Cake" = "Cake hello" := by decide
example : cleanGarbageText (cleanGarbageText "CakeCake hello" "Cake") "Cake" = "hello" := by decide
example : cleanGarbageText "Instructions: mix it" "Pie" = "mix it" := by decide
example : cleanGarbageText "mix it Allrecipes credit" "Pie" = "mix it" := by decide
example : cleanGarbageText "1. mix\n1) mix\n2. rest" "Pie" = "1. mix\n2. rest" := by decide
example : cleanGarbageText "" "Cake" = "" := by decide
example : extractNutritionInfo "Calories: 250 per serving\nmix well" = ["Calories: 250 per serving"] := by decide
example : extractNutritionInfo "" = [] := by decide

/-!
A small backtracking regex core for the `findall` patterns of
`extract_ingredients_from_text`.  A pattern is a tree of character classes,
case-insensitive literals, sequencing, ordered alternation and quantifiers;
`reEnds` returns the possible suffixes left after a match starting at the
head of the input, in exactly the backtracking preference order of the
Python `re` engine (greedy quantifiers longest first, lazy ones shortest
first, alternatives in listed order), so the head of the list corresponds
to the match Python reports.  None of these patterns contains `\b` or
anchors, and none can match the empty string.  The explicit fuel bounds the
recursion depth; `reFuel` is ample for every input in this development. -/
inductive RE where
  | cls (p : Char → Bool)
  | lit (s : String)
  | seq (l : List RE)
  | alt (l : List RE)
  | star (greedy : Bool) (r : RE)
  | plus (greedy : Bool) (r : RE)
  | opt (greedy : Bool) (r : RE)

/-- Possible suffixes after matching `r` at the head of `l`, in Python
backtracking preference order. -/
def reEnds : Nat → RE → List Char → List (List Char)
  | 0, _, _ => []
  | _ + 1, .cls p, l =>
    match l with
    | [] => []
    | c :: t => if p c then [t] else []
  | _ + 1, .lit s, l =>
    if ciStartsWith l s.data then [l.drop s.data.length] else []
  | _, .seq [], l => [l]
  | fuel + 1, .seq (r :: rs), l =>
    (reEnds fuel r l).flatMap (fun l2 => reEnds fuel (.seq rs) l2)
  | fuel + 1, .alt rs, l => rs.flatMap (fun r => reEnds fuel r l)
  | fuel + 1, .star g r, l =>
    let deeper :=
      (reEnds fuel r l).flatMap (fun l2 =>
        if l2.length < l.length then reEnds fuel (.star g r) l2 else [])
    if g then deeper ++ [l] else l :: deeper
  | fuel + 1, .plus g r, l => reEnds fuel (.seq [r, .star g r]) l
  | fuel + 1, .opt g r, l =>
    if g then reEnds fuel r l ++ [l] else l :: reEnds fuel r l

/-- Ample fuel for a match attempt on `l`. -/
def reFuel (l : List Char) : Nat := 24 * l.length + 240

/-- `re.findall` with a pattern whose single group is the whole match:
scan left to right, take the preferred match at each position, emit the
matched text, and continue after it. -/
def findAllGo (r : RE) : Nat → List Char → List (List Char)
  | 0, _ => []
  | fuel + 1, l =>
    match (reEnds (reFuel l) r l).head? with
    | some l2 =>
      if l2.length < l.length then
        l.take (l.length - l2.length) :: findAllGo r fuel l2
      else
        match l with
        | [] => []
        | _ :: t => findAllGo r fuel t
    | none =>
      match l with
      | [] => []
      | _ :: t => findAllGo r fuel t

/-- All matches of `r` in `s`. -/
def findAllRE (r : RE) (s : List Char) : List (List Char) :=
  findAllGo r (s.length + 1) s

/-- Generic regex-style split: `cut prev l` reports the length of a
separator match at the current position, given the previous character;
matched separators are removed, the pieces between them are returned
(empty pieces included, as with `re.split`). -/
def splitByCut (cut : Option Char → List Char → Option Nat) :
    Nat → Option Char → List Char → List (List Char)
  | _, _, [] => [[]]
  | 0, _, l => [l]
  | fuel + 1, prev, l@(c :: t) =>
    match cut prev l with
    | some n =>
      if n = 0 then
        match splitByCut cut fuel prev t with
        | p :: ps => (c :: p) :: ps
        | [] => [[c]]
      else
        let consumed := l.take n
        [] :: splitByCut cut fuel (consumed.getLast? ) (l.drop n)
    | none =>
      match splitByCut cut fuel (some c) t with
      | p :: ps => (c :: p) :: ps
      | [] => [[c]]

/-- Run a cut-based split over a whole string. -/
def splitByCutAll (cut : Option Char → List Char → Option Nat) (l : List Char) :
    List (List Char) :=
  splitByCut cut (l.length + 1) none l

-- Character classes of the ingredient patterns.

/-- Class `[^.,\n]`. -/
def notClauseC : RE := .cls (fun c => !(c = '.' || c = ',' || c = '\n'))

/-- Class `\s`. -/
def wsC : RE := .cls isWsPy

/-- Class `\d`. -/
def digitC : RE := .cls isDigitCh

/-- Class `[\w\s\,\(\)\-]` of pattern 5. -/
def p5LeadC : RE :=
  .cls (fun c => isWordCh c || isWsPy c || c = ',' || c = '(' || c = ')' || c = '-')

/-- Class `[^\)]`. -/
def parenInnerC : RE := .cls (fun c => c ≠ ')')

/-- The `units` alternation local to `extract_ingredients_from_text`
(line 179), in source order; the patterns are compiled with `re.IGNORECASE`. -/
def unitsAltList : List String :=
  ["cup", "cups", "tbsp", "tbs", "tsp", "tablespoon", "tablespoons", "teaspoon",
   "teaspoons", "gram", "g", "kg", "ml", "l", "oz", "ounce", "ounces", "pound",
   "pounds", "lb", "lbs", "buah", "siung", "biji", "lembar", "potong", "slices",
   "slice", "clove", "cloves"]

/-- `(?:cup|cups|...)` as a pattern. -/
def unitsRE : RE := .alt (unitsAltList.map (fun u => .lit u))

/-- Optional decimal part `(?:[\.,]\d+)?`. -/
def fracOptRE : RE :=
  .opt true (.seq [.cls (fun c => c = '.' || c = ','), .plus true digitC])

/-- Pattern 1: `(\d+(?:[\.,]\d+)?\s*units\s+[^.,\n]+)`. -/
def ingPat1 : RE :=
  .seq [.plus true digitC, fracOptRE, .star true wsC, unitsRE,
        .plus true wsC, .plus true notClauseC]

/-- Pattern 2: `(\d+[-–]\d+\s*units\s+[^.,\n]+)`. -/
def ingPat2 : RE :=
  .seq [.plus true digitC, .cls (fun c => c = '-' || c = '–'), .plus true digitC,
        .star true wsC, unitsRE, .plus true wsC, .plus true notClauseC]

/-- Pattern 3: `(\d+\s+to\s+\d+\s*units\s+[^.,\n]+)`. -/
def ingPat3 : RE :=
  .seq [.plus true digitC, .plus true wsC, .lit "to", .plus true wsC,
        .plus true digitC, .star true wsC, unitsRE, .plus true wsC,
        .plus true notClauseC]

/-- Pattern 4: `(\d+/\d+\s*units\s+[^.,\n]+)`. -/
def ingPat4 : RE :=
  .seq [.plus true digitC, .cls (· = '/'), .plus true digitC, .star true wsC,
        unitsRE, .plus true wsC, .plus true notClauseC]

/-- Pattern 5: `([\w\s\,\(\)\-]*\d+(?:[\.,]\d+)?\s*units\s*(?:\([^\)]*\)\s*)?[^.,\n]+)`. -/
def ingPat5 : RE :=
  .seq [.star true p5LeadC, .plus true digitC, fracOptRE, .star true wsC, unitsRE,
        .star true wsC,
        .opt true (.seq [.cls (· = '('), .star true parenInnerC, .cls (· = ')'),
                         .star true wsC]),
        .plus true notClauseC]

/-- Pattern 6: `(\d+\s*\([^\)]+\)\s*[^.,\n]+)`. -/
def ingPat6 : RE :=
  .seq [.plus true digitC, .star true wsC, .cls (· = '('), .plus true parenInnerC,
        .cls (· = ')'), .star true wsC, .plus true notClauseC]

/-- The six patterns in source order (lines 182-191). -/
def ingPatterns : List RE := [ingPat1, ingPat2, ingPat3, ingPat4, ingPat5, ingPat6]

-- Engine sanity checks against the Python behaviour of the patterns.
example : findAllRE ingPat1 "take 2 cups flour, mix".data = ["2 cups flour".data] := by decide
example : findAllRE ingPat1 "2cups flour".data = ["2cups flour".data] := by decide
example : findAllRE ingPat5 "take 2 cups flour, mix".data = ["take 2 cups flour".data] := by decide
example : findAllRE ingPat4 "use 1/2 cup butter here.".data = ["1/2 cup butter here".data] := by decide
example : findAllRE ingPat1 "mix one cup sugar".data = [] := by decide
example : findAllRE ingPat6 "1 (9-inch) pie crust, frozen".data = ["1 (9-inch) pie crust".data] := by decide

/-!
Supporting scanners for `extract_ingredients_from_text` (lines 174-410).
-/

/-- Maximal runs of characters matched by `[A-Za-z\-']+` (line 303). -/
def alphaTokens (fuel : Nat) (l : List Char) : List (List Char) :=
  match fuel, l with
  | 0, _ => []
  | _, [] => []
  | fuel + 1, c :: t =>
    if isAlphaCh c || c = '-' || c = aposC then
      let tok := (c :: t).takeWhile (fun d => isAlphaCh d || d = '-' || d = aposC)
      tok :: alphaTokens fuel ((c :: t).drop tok.length)
    else alphaTokens fuel t

/-- Substitution of a `\b(?:w1|w2|...)\b` pattern (all alternatives pure word
runs) by `repl`: every maximal word token whose lowercasing is in the word
list is replaced, everything else is kept. -/
def wordSetSub (wordsLower : List String) (repl : List Char) :
    Nat → Option Char → List Char → List Char
  | 0, _, l => l
  | _, _, [] => []
  | fuel + 1, prev, c :: t =>
    if isWordCh c && (match prev with | none => true | some p => !isWordCh p) then
      let tok := (c :: t).takeWhile isWordCh
      let rest := (c :: t).drop tok.length
      if wordsLower.any (fun u => lowerL tok = u.data) then
        repl ++ wordSetSub wordsLower repl fuel tok.getLast? rest
      else
        tok ++ wordSetSub wordsLower repl fuel tok.getLast? rest
    else c :: wordSetSub wordsLower repl fuel (some c) t

/-- Run a word-set substitution over a whole list. -/
def wordSetSubAll (wordsLower : List String) (repl : List Char) (l : List Char) :
    List Char :=
  wordSetSub wordsLower repl (l.length + 1) none l

/-- Substitution `\([^)]*\)` with a space: every parenthesis group up to the
next closing parenthesis becomes one space; an unclosed `(` stays. -/
def parenSub : Nat → List Char → List Char
  | 0, l => l
  | _, [] => []
  | fuel + 1, c :: t =>
    if c = '(' then
      match t.findIdx? (· = ')') with
      | some j => ' ' :: parenSub fuel (t.drop (j + 1))
      | none => c :: parenSub fuel t
    else c :: parenSub fuel t

/-- Substitution `\s+` with one space followed by `strip()`
(`re.sub(r'\s+', ' ', s).strip()`). -/
def wsCollapseStrip (l : List Char) : List Char :=
  joinWithCh ' ' (splitWsL l)

/-- Truncation by `\bWORD\b.*$` on newline-free input: cut at the first
word-bounded case-insensitive occurrence of `word`. -/
def wordTruncate (word : String) : Option Char → List Char → List Char
  | _, [] => []
  | prev, c :: t =>
    if (match prev with | none => true | some p => !isWordCh p) &&
        ciStartsWith (c :: t) word.data &&
        (match (c :: t).drop word.data.length with
         | [] => true
         | d :: _ => !isWordCh d) then
      []
    else c :: wordTruncate word (some c) t

/-- Does the list contain a run of three or more ASCII letters
(`re.search(r'[A-Za-z]{3,}', s)`)? -/
def threeLetterRun : Nat → List Char → Bool
  | _, [] => false
  | k, c :: t =>
    if isAlphaCh c then (k + 1 ≥ 3) || threeLetterRun (k + 1) t
    else threeLetterRun 0 t

/-- Strip leading and trailing non-alphanumeric characters
(`re.sub(r'^[^A-Za-z0-9]+|[^A-Za-z0-9]+$', '', c)`). -/
def trimNonAlnum (l : List Char) : List Char :=
  dropEndWhile (fun c => !(isAlphaCh c || isDigitCh c))
    (l.dropWhile (fun c => !(isAlphaCh c || isDigitCh c)))

/-- Separator of the ingredient post-split `\r?\n|\n|\n-|-\s+` (line 210):
at the current position a `\r\n`, a bare `\n`, or a `-` followed by at least
one whitespace character is a separator (`\n-` is shadowed by `\n`). -/
def ingSplitCut (_ : Option Char) (l : List Char) : Option Nat :=
  match l with
  | '\r' :: '\n' :: _ => some 2
  | '\n' :: _ => some 1
  | '-' :: t =>
    let w := (t.takeWhile isWsPy).length
    if w ≥ 1 then some (1 + w) else none
  | _ => none

/-- Separator of the heuristic part split
`,| and |\band\b|;|/|\+|\bor\b` (line 298), alternatives in source order. -/
def heurCut (prev : Option Char) (l : List Char) : Option Nat :=
  if l.head? = some ',' then some 1
  else if ciStartsWith l " and ".data then some 5
  else if ciStartsWith l "and".data &&
      (match prev with | none => true | some p => !isWordCh p) &&
      (match l.drop 3 with | [] => true | d :: _ => !isWordCh d) then some 3
  else if l.head? = some ';' then some 1
  else if l.head? = some '/' then some 1
  else if l.head? = some '+' then some 1
  else if ciStartsWith l "or".data &&
      (match prev with | none => true | some p => !isWordCh p) &&
      (match l.drop 2 with | [] => true | d :: _ => !isWordCh d) then some 2
  else none

/-- Sentence separator `(?<=[.!?])\s+`: a whitespace run preceded by
terminal punctuation. -/
def sentCut (prev : Option Char) (l : List Char) : Option Nat :=
  match prev with
  | some p =>
    if p = '.' || p = '!' || p = '?' then
      let w := (l.takeWhile isWsPy).length
      if w ≥ 1 then some w else none
    else none
  | none => none

/-- `re.split(r'(?<=[.!?])\s+', text)`. -/
def sentSplit (s : String) : List String :=
  (splitByCutAll sentCut s.data).map String.mk

-- Sanity checks.
example : sentSplit "One. Two!  Three? четыре" = ["One.", "Two!", "Three?", "четыре"] := by decide
example : sentSplit "" = [""] := by decide
example : (splitByCutAll heurCut "a, b and c/d android".data).map String.mk
    = ["a", " b", "c", "d android"] := by decide
example : wordTruncate "into" none "pour into the pan".data = "pour ".data := by decide
example : (alphaTokens 64 "semi-sweet salt, pepper".data).map String.mk
    = ["semi-sweet", "salt", "pepper"] := by decide
example : wsCollapseStrip "  a   b ".data = "a b".data := by decide
example : (wordSetSubAll unitsAltList " ".data "two cups flour".data) = "two   flour".data := by decide

/-!
The verb-object fallback pattern of the ingredient extractor (line 295):
`\b(?:add|adds|stir in|...)\b\s*(?:the\s)?([^\.,;\n]+)`, with `findall`
returning group 1.  The matcher below reproduces the backtracking order of
the Python engine: alternatives in listed order (retried when the rest of
the pattern fails), `\s*` greedy from longest to shortest, the optional
`the\s` tried before its absence, and the final class run greedy.
-/

/-- Verb alternatives of line 295 in source order. -/
def verbAltList : List String :=
  ["add", "adds", "stir in", "stir", "mix in", "mix", "combine", "fold in",
   "fold", "sprinkle", "melt", "press", "place", "roll out", "roll", "peel",
   "core", "slice", "top with", "use", "put", "brush"]

/-- Characters admitted by the capture class `[^\.,;\n]`. -/
def verbCapOk (c : Char) : Bool := !(c = '.' || c = ',' || c = ';' || c = '\n')

/-- Match the pattern tail `\s*(?:the\s)?([^\.,;\n]+)` on `r` with exactly
`k` whitespace characters consumed by `\s*`: the optional `the\s` is tried
first (greedy), then its absence; returns the consumed length and the
captured group. -/
def verbTryK (r : List Char) (k : Nat) : Option (Nat × List Char) :=
  let r2 := r.drop k
  let theBranch :=
    if ciStartsWith r2 "the".data &&
        (match r2.drop 3 with | d :: _ => isWsPy d | [] => false) then
      let cap := (r2.drop 4).takeWhile verbCapOk
      if cap ≠ [] then some (k + 4 + cap.length, cap) else none
    else none
  match theBranch with
  | some res => some res
  | none =>
    let cap := r2.takeWhile verbCapOk
    if cap ≠ [] then some (k + cap.length, cap) else none

/-- Match the pattern tail starting from the longest `\s*` consumption `k`
and backtracking down to zero, as the greedy Python engine does. -/
def verbRestTry (r : List Char) : Nat → Option (Nat × List Char)
  | 0 => verbTryK r 0
  | k + 1 =>
    match verbTryK r (k + 1) with
    | some res => some res
    | none => verbRestTry r k

/-- Try the verb pattern at the head of `l` (a word boundary before the
head is checked by the caller): first alternative, in order, that matches
with a closing word boundary and lets the pattern tail succeed. -/
def verbPatTryHere (l : List Char) : Option (Nat × List Char) :=
  go verbAltList
where
  go : List String → Option (Nat × List Char)
  | [] => none
  | a :: rest =>
    if ciStartsWith l a.data &&
        (match l.drop a.data.length with | [] => true | d :: _ => !isWordCh d) then
      let r := l.drop a.data.length
      match verbRestTry r (r.takeWhile isWsPy).length with
      | some (rl, grp) => some (a.data.length + rl, grp)
      | none => go rest
    else go rest

/-- `re.findall` of the verb pattern: scan left to right, match at word
boundaries, emit group 1, continue after each match. -/
def verbPatFindAll : List Char → List (List Char) :=
  fun l => go (l.length + 1) none l
where
  go : Nat → Option Char → List Char → List (List Char)
  | 0, _, _ => []
  | _ + 1, _, [] => []
  | fuel + 1, prev, l@(c :: t) =>
    if (match prev with | none => true | some p => !isWordCh p) then
      match verbPatTryHere l with
      | some (len, grp) => grp :: go fuel (l.take len).getLast? (l.drop len)
      | none => go fuel (some c) t
    else go fuel (some c) t

-- Checks mirroring the Python probes of this pattern.
example : (verbPatFindAll "stir in.".data).map String.mk = ["in"] := by decide
example : (verbPatFindAll "add the flour now.".data).map String.mk = ["flour now"] := by decide
example : (verbPatFindAll "Add  sugar, then mix butter".data).map String.mk
    = ["sugar", "butter"] := by decide
example : (verbPatFindAll "stir into the pot".data).map String.mk = ["into the pot"] := by decide
example : (verbPatFindAll "roll out dough; use flour".data).map String.mk
    = ["dough", "flour"] := by decide
example : (verbPatFindAll "place.".data).map String.mk = [] := by decide
example : (verbPatFindAll "melt\nbutter".data).map String.mk = ["butter"] := by decide

/-!
`extract_ingredients_from_text` (lines 174-410), stage by stage.
-/

/-- Stage 1 (lines 193-205): run the six patterns in order, collect matches,
drop nutrition, time/temperature and verb-led hits. -/
def extractStageA (text : String) : List String :=
  ((ingPatterns.flatMap (fun p => findAllRE p text.data)).map String.mk).filter
    (fun m => !nutritionSearch m && !timeTempSearch m && !verbPhrasesMatch (pyStrip m))

/-- Stage 2 (lines 208-226): split matches on newlines and bullet dashes,
trim, and filter nutrition/time, kitchen-tool and verb-led parts. -/
def extractStageB (ingredients : List String) : List String :=
  ingredients.flatMap (fun it =>
    (splitByCutAll ingSplitCut it.data).filterMap (fun part =>
      let p : String := ⟨stripL (lstripSetL ['-'] (stripL part))⟩
      if p.data = [] then none
      else if nutritionSearch p || timeTempSearch p then none
      else if kitchenToolHit (pyLower p) then none
      else if verbPhrasesMatch p then none
      else some p))

/-- Stage 3 (lines 230-259): strip, refilter, and deduplicate by the
lowercased phrase, first occurrence winning. -/
def extractStageC : List String → List String → List String
  | _, [] => []
  | seen, ing :: rest =>
    let c := pyStrip ing
    if timeTempSearch c then extractStageC seen rest
    else if nutritionSearch c then extractStageC seen rest
    else if kitchenToolHit (pyLower c) then extractStageC seen rest
    else if verbPhrasesMatch c then extractStageC seen rest
    else if pyLen c < 3 then extractStageC seen rest
    else if seen.contains (pyLower c) then extractStageC seen rest
    else c :: extractStageC (pyLower c :: seen) rest

/-- Stopword list of the verb-object heuristic (line 304). -/
def heurStopwords : List String :=
  ["and", "then", "the", "a", "an", "to", "in", "into", "over", "with", "until",
   "for", "about", "of", "on", "at", "by", "each", "per", "so", "it", "that"]

/-- Cooking-adjective list of the verb-object heuristic (line 305). -/
def cookingAdj : List String :=
  ["sliced", "thinly", "chopped", "diced", "minced", "fresh", "unsalted",
   "salted", "medium", "large", "small", "peeled", "cored", "thin", "soft",
   "remaining", "one", "two", "both", "stir", "form", "first", "second",
   "third", "fourth", "up", "will", "trim", "excess", "some", "onto", "sides",
   "inch", "strip", "strips", "pieces", "piece", "press", "roll", "rollout",
   "lay", "cut", "place", "cook", "bring", "reduce", "remove", "paste"]

/-- Pantry list of the consolidation stage (lines 340-344). -/
def pantry : List String :=
  ["salt", "sugar", "butter", "flour", "egg", "eggs", "milk", "water",
   "olive oil", "oil", "vinegar", "baking powder", "baking soda", "yeast",
   "vanilla", "cinnamon", "apple", "apples", "pastry", "crust", "sugar-butter",
   "sugar butter", "sugars"]

/-- Candidates produced from one verb-pattern match in the heuristic stage
(lines 296-319): split the captured object list, strip `into`/`for` tails,
tokenize, drop stopwords/adjectives, keep the first surviving word, and
apply the unit-only, nutrition/time and kitchen-tool filters. -/
def heurFromMatch (seen : List String) (m : List Char) : List String :=
  let cand := stripL m
  (splitByCutAll heurCut cand).filterMap (fun part =>
    let p1 := stripL part
    let p2 := stripL (wordTruncate "into" none p1)
    let p3 := stripL (wordTruncate "for" none p2)
    let words := alphaTokens (p3.length + 1) p3
    let keep := words.filter (fun w =>
      !heurStopwords.any (fun st => lowerL w = st.data) &&
      !cookingAdj.any (fun aj => lowerL w = aj.data) &&
      !(match w with | d :: _ => isDigitCh d | [] => false))
    match keep with
    | [] => none
    | w :: _ =>
      let candidate : String := ⟨stripL w⟩
      if candidate.data.length > 1 && !seen.contains (pyLower candidate) then
        if unitSearch candidate &&
            !threeLetterRun 0 (wordSetSubAll unitWordsUP [] candidate.data) then none
        else if nutritionSearch candidate || timeTempSearch candidate then none
        else if kitchenToolHit (pyLower candidate) then none
        else some candidate
      else none)

/-- Lines 322-326: extend the cleaned list with the heuristic candidates,
deduplicating by the lowercased text. -/
def heurAppend : List String → List String → List String → List String
  | cleaned, _, [] => cleaned
  | cleaned, seen, h :: rest =>
    let hc := pyStrip h
    if hc.data ≠ [] && !seen.contains (pyLower hc) then
      heurAppend (cleaned ++ [hc]) (pyLower hc :: seen) rest
    else heurAppend cleaned seen rest

/-- Banned substrings of the consolidation stage (lines 332-337). -/
def bannedSubstrings : List String :=
  ["oven", "preheat", "minute", "minutes", "hour", "heat", "step", "steps",
   "repeat", "natalie", "informasi", "nutrisi", "instructions", "cara",
   "memasak", "remove", "place", "lay", "fold", "unfold", "trim", "press",
   "bake", "cook", "bring", "reduce", "position", "center", "edge", "vitamin",
   "kcal", "calorie", "%", "serving", "per serving"]

/-- Adjectives stripped inside `core_name` (line 359). -/
def coreAdjWords : List String :=
  ["sliced", "chopped", "diced", "minced", "fresh", "unsalted", "salted",
   "medium", "large", "small", "peeled", "cored", "thin", "soft", "pieces",
   "piece"]

/-- `core_name(s)` (lines 354-364): lowercase, drop parenthesised groups,
replace every character outside `[a-z\s]` by a space, delete unit and
adjective words, collapse whitespace, and keep the last one or two words. -/
def coreName (s : String) : String :=
  let s0 := lowerL s.data
  let s1 := parenSub (s0.length + 1) s0
  let s2 := s1.map (fun c => if isLowerCh c || isWsPy c then c else ' ')
  let s3 := wordSetSubAll unitWordsUP [' '] s2
  let s4 := wordSetSubAll coreAdjWords [' '] s3
  let s5 := wsCollapseStrip s4
  match splitWsL s5 with
  | [] => ⟨s5⟩
  | [x] => ⟨x⟩
  | parts => ⟨joinWithCh ' ' (parts.drop (parts.length - 2))⟩

/-- Lookup in the ordered `core_map` association list. -/
def assocFind : List (String × String) → String → Option String
  | [], _ => none
  | kv :: t, key => if kv.1 = key then some kv.2 else assocFind t key

/-- In-place value update in the ordered `core_map` association list. -/
def assocUpdate : List (String × String) → String → String → List (String × String)
  | [], _, _ => []
  | kv :: t, key, nv =>
    if kv.1 = key then (kv.1, nv) :: t else kv :: assocUpdate t key nv

/-- One iteration of the consolidation loop of lines 366-403: filter noisy
candidates, then merge by core name, preferring a candidate with an
explicit digit over one without, else the longer text.  (The two
`cl.replace(...)` calls of lines 389-390 rebind a variable that is never
read afterwards and are therefore without effect.) -/
def consolidateStep (acc : List (String × String)) (cand : String) :
    List (String × String) :=
  let c : String := ⟨trimNonAlnum (pyStrip cand).data⟩
  if c.data = [] then acc
  else
    let cl := pyLower c
    if bannedSubstrings.any (fun bs => containsSubS cl bs) then acc
    else if consolidationVerbSearch cl &&
        !(unitSearch cl || pantry.any (fun p => containsSubS cl p)) then acc
    else if kitchenToolHit cl && !(pantry.any (fun p => containsSubS cl p)) then acc
    else if (cl.data.filter isAlphaCh).length < 3 then acc
    else
      let core := coreName c
      match assocFind acc core with
      | none => acc ++ [(core, c)]
      | some existing =>
        let nv :=
          if (c.data.any isDigitCh) && !(existing.data.any isDigitCh) then c
          else if c.data.length > existing.data.length then c
          else existing
        assocUpdate acc core nv

/-- The consolidation loop over all candidates. -/
def consolidateGo : List (String × String) → List String → List (String × String)
  | acc, [] => acc
  | acc, cand :: rest => consolidateGo (consolidateStep acc cand) rest

/-- The consolidated ingredient list, in first-seen core-name order. -/
def consolidate (cands : List String) : List String :=
  (consolidateGo [] cands).map Prod.snd

/-- The candidate list of `extract_ingredients_from_text` before the
consolidation stage (lines 193-326): pattern matches, post-split, the
cleaned filter, and — when that is empty — the verb-object heuristic
(the optional spaCy noun-chunk pass is modelled absent). -/
def preConsolidationCandidates (text : String) : List String :=
  let stageA := extractStageA text
  let stageB := extractStageB stageA
  let cleanedC := extractStageC [] stageB
  if cleanedC.isEmpty then
    let seen := cleanedC.map pyLower
    let heur := (verbPatFindAll text.data).flatMap (heurFromMatch seen)
    heurAppend cleanedC seen heur
  else cleanedC

/-- `extract_ingredients_from_text(text)` (lines 174-410). -/
def extractIngredientsFromText (text : String) : List String :=
  let cleaned := preConsolidationCandidates text
  let final := consolidate cleaned
  if !final.isEmpty then final else cleaned

-- Concrete checks of the extractor.
example : extractIngredientsFromText "" = [] := by decide
example : coreName "fresh butter" = "butter" := by decide
example : coreName "butter" = "butter" := by decide
example : coreName "1/2 cup butter" = "butter" := by decide
example : extractIngredientsFromText "Gently pour one cup sugar into bowl now." = [] := by decide

/-!
The local formatter (`local_format_to_markdown`, lines 415-521) and the
step extractor (`extract_steps`, lines 600-643).
-/

/-- Section-header labels removed from the step text (line 437). -/
def headerLabels : List String := ["bahan-bahan", "ingredients", "ingredient"]

/-- Multiline substitution
`(?im)^\s*(bahan-bahan|ingredients|ingredient)[:\s\-]*\n?` with `''`
(line 437): at each line start, a whitespace run (which may span lines)
followed by a label and a run of colons, dashes and whitespace is removed;
the trailing `\n?` is subsumed by that run. -/
def headerCutGo : Nat → Bool → List Char → List Char
  | 0, _, l => l
  | _ + 1, _, [] => []
  | fuel + 1, atLS, l@(c :: t) =>
    if atLS then
      let r := l.dropWhile isWsPy
      match headerLabels.find? (fun lab => ciStartsWith r lab.data) with
      | some lab =>
        let r2 := (r.drop lab.data.length).dropWhile (fun d => d = ':' || d = '-' || isWsPy d)
        let consumed := l.take (l.length - r2.length)
        headerCutGo fuel (consumed.getLast? = some '\n') r2
      | none => c :: headerCutGo fuel (c = '\n') t
    else c :: headerCutGo fuel (c = '\n') t

/-- Header-removal substitution over a whole text. -/
def headerCut (l : List Char) : List Char := headerCutGo (l.length + 1) true l

/-- The `$` positions reachable by a greedy trailing `\s*` in multiline
mode: from position `q` with whitespace run length `w`, the largest
`t ∈ [q, q+w]` that is the end of the string or sits on a newline. -/
def dollarBack (s : List Char) (q : Nat) : Nat → Option Nat
  | 0 => if q = s.length || s.getD q '\x00' = '\n' then some q else none
  | w + 1 =>
    let t := q + w + 1
    if t = s.length || s.getD t '\x00' = '\n' then some t
    else dollarBack s q w

/-- Attempt of `^\s*(?:-|•)?\s*ESC\s*$` at one line-start position of
`s` (the whole string), where the position is given by its suffix `l`;
returns the total number of characters consumed when the line matches the
escaped ingredient `esc` (compared case-insensitively).  The greedy
optional bullet is tried first, then its absence. -/
def ingLineHere (s : List Char) (pos : Nat) (esc : List Char) (l : List Char) :
    Option Nat :=
  let w0 := (l.takeWhile isWsPy).length
  let r := l.drop w0
  let tailTry : Nat → Option Nat := fun lead =>
    if ciStartsWith (l.drop lead) esc then
      let q := pos + lead + esc.length
      let w2 := ((l.drop (lead + esc.length)).takeWhile isWsPy).length
      match dollarBack s q w2 with
      | some t => some (t - pos)
      | none => none
    else none
  let bulletBranch :=
    match r with
    | b :: _ =>
      if b = '-' || b = '•' then
        let w1 := ((l.drop (w0 + 1)).takeWhile isWsPy).length
        tailTry (w0 + 1 + w1)
      else none
    | [] => none
  match bulletBranch with
  | some n => some n
  | none => tailTry w0

/-- Substitution `(?im)^\s*(?:-|•)?\s*ESC\s*$` with `''` (lines 439-441
and 614-617): remove every whole line (with optional bullet) equal to the
ingredient. -/
def ingLineCutGo (s esc : List Char) : Nat → Bool → Nat → List Char
  | 0, _, pos => s.drop pos
  | fuel + 1, atLS, pos =>
    match s.drop pos with
    | [] => []
    | c :: _ =>
      if atLS then
        match ingLineHere s pos esc (s.drop pos) with
        | some n =>
          if n = 0 then c :: ingLineCutGo s esc fuel (c = '\n') (pos + 1)
          else ingLineCutGo s esc fuel (s.getD (pos + n - 1) '\x00' = '\n') (pos + n)
        | none => c :: ingLineCutGo s esc fuel (c = '\n') (pos + 1)
      else c :: ingLineCutGo s esc fuel (c = '\n') (pos + 1)

/-- Remove every line matching the given ingredient. -/
def ingLineCut (esc : List Char) (s : List Char) : List Char :=
  ingLineCutGo s esc (s.length + 1) true 0

/-- Substitution `\n{2,}` with `\n\n` (line 443): collapse each run of two
or more newlines to exactly two. -/
def blankCollapse : Nat → List Char → List Char
  | 0, l => l
  | _ + 1, [] => []
  | fuel + 1, '\n' :: t =>
    let run := 1 + (t.takeWhile (· = '\n')).length
    if run ≥ 2 then '\n' :: '\n' :: blankCollapse fuel (t.drop (run - 1))
    else '\n' :: blankCollapse fuel t
  | fuel + 1, c :: t => c :: blankCollapse fuel t

/-- Drop nutrition lines from the step text (line 445). -/
def nutritionLineFilter (l : List Char) : List Char :=
  joinWithCh '\n' ((splitLinesPy l).filter (fun ln => !nutritionSearch ⟨ln⟩))

/-- Normalisation of a provided ingredients payload (lines 422-426 and
606-612): a non-empty list is stripped entry-wise with empties dropped;
`None` or an empty list falls back to extraction from the text. -/
def ingredientsOfPayload (text : String) : Option (List String) → List String
  | some l =>
    if l.isEmpty then extractIngredientsFromText text
    else (l.map pyStrip).filter (fun x => x.data ≠ [])
  | none => extractIngredientsFromText text

/-- Step-text preparation of `local_format_to_markdown` (lines 433-446). -/
def textForSteps (text : String) (ingredients : List String) : String :=
  if ingredients.isEmpty then text
  else
    let t1 := headerCut text.data
    let t2 := ingredients.foldl (fun acc ing => ingLineCut ing.data acc) t1
    let t3 := stripL (blankCollapse (t2.length + 1) t2)
    ⟨stripL (nutritionLineFilter t3)⟩

/-- Step-filter loop of `local_format_to_markdown` (lines 452-469): strip,
drop sentences under 10 characters, drop sentences that are at most 8
tokens long and carry a unit, or that start with or equal an extracted
ingredient (case-insensitively), then strip leading numbering. -/
def localSteps (sentences : List String) (ingredients : List String) : List String :=
  sentences.filterMap (fun s0 =>
    let s := pyStrip s0
    if pyLen s < 10 then none
    else
      let shortWords := numTokens s ≤ 8
      let containsUnit := unitSearch s
      let sLow := stripL (pyLower s).data
      let matchesIng := ingredients.any (fun ing =>
        (pyLower ing).data.isPrefixOf sLow || sLow = (pyLower ing).data)
      if (shortWords && containsUnit) || matchesIng then none
      else
        let s2 := stripLeadingNum s.data
        if s2 = [] then none else some ⟨s2⟩)

/-- Decimal numbering used in the assembled markdown. -/
def natDigits (n : Nat) : String := Nat.repr n

/-- Numbered step lines `f"{i}. {step}"`, 1-based. -/
def numberSteps (steps : List String) : List String :=
  (List.range steps.length).zipWith
    (fun i step => natDigits (i + 1) ++ ". " ++ step) steps

/-- `local_format_to_markdown(raw_text, recipe_name, language,
ingredients_list)` (lines 415-521). -/
def localFormatToMarkdown (rawText recipeName : String) (language : String)
    (ingredientsList : Option (List String)) : String :=
  let text := cleanGarbageText rawText recipeName
  let ingredients := ingredientsOfPayload text ingredientsList
  let nutritionInfo := extractNutritionInfo text
  let tfs := textForSteps text ingredients
  let steps := localSteps (sentSplit tfs) ingredients
  let md :=
    if language = "indonesian" then
      ["## " ++ recipeName ++ "\n", "### 🛒 Bahan-bahan"] ++
      (if !ingredients.isEmpty then ingredients.map (fun ing => "- " ++ ing)
       else ["- (Bahan tidak terdeteksi, lihat instruksi di bawah)"]) ++
      ["\n### 🍳 Cara Memasak"] ++
      (if !steps.isEmpty then numberSteps steps else ["1. " ++ text]) ++
      ["\n### ℹ️ Informasi Nutrisi"] ++
      (if !nutritionInfo.isEmpty then nutritionInfo.map (fun item => "- " ++ item)
       else ["- Tidak tersedia"])
    else
      ["## " ++ recipeName ++ "\n", "### 🛒 Ingredients"] ++
      (if !ingredients.isEmpty then ingredients.map (fun ing => "- " ++ ing)
       else ["- (Ingredients not auto-detected, see instructions)"]) ++
      ["\n### 🍳 Instructions"] ++
      (if !steps.isEmpty then numberSteps steps else ["1. " ++ text]) ++
      ["\n### ℹ️ Nutrition Information"] ++
      (if !nutritionInfo.isEmpty then nutritionInfo.map (fun item => "- " ++ item)
       else ["- Not available"])
  String.intercalate "\n" md

/-- `extract_steps(raw_text, recipe_name, ingredients_list)` (lines
600-643): clean, remove ingredient lines, split into sentences, filter
(minimum length 6, leading numbering stripped, at most 6 tokens with a
unit dropped, nutrition lines dropped) and deduplicate by lowercase. -/
def extractSteps (rawText recipeName : String)
    (ingredientsList : Option (List String)) : List String :=
  let text0 := cleanGarbageText rawText recipeName
  let ings := ingredientsOfPayload text0 ingredientsList
  let text1 := ings.foldl (fun acc ing => ingLineCut ing.data acc) text0.data
  let sentences := (splitByCutAll sentCut text1).map String.mk
  let steps := sentences.filterMap (fun s0 =>
    let s := pyStrip s0
    if pyLen s < 6 then none
    else
      let s2 : String := ⟨stripLeadingNum s.data⟩
      if numTokens s2 ≤ 6 && unitSearch s2 then none
      else if nutritionSearch s2 then none
      else some s2)
  (dedupByKey lowerL [] (steps.map (·.data))).map String.mk

-- Sanity checks.
example : ingLineCut "2 cups flour".data "mix.\n- 2 cups flour\nbake.".data
    = "mix.\n\nbake.".data := by decide
example : blankCollapse 32 "a\n\n\n\nb".data = "a\n\nb".data := by decide
example : headerCut "Ingredients:\n2 eggs".data = "2 eggs".data := by decide
example : extractSteps "Gently pour one cup flour into bowl now." "Cake" none
    = ["Gently pour one cup flour into bowl now."] := by decide
example : localFormatToMarkdown "" "Cake" "english" none
    = "## Cake\n\n### 🛒 Ingredients\n- (Ingredients not auto-detected, see instructions)\n\n### 🍳 Instructions\n1. \n\n### ℹ️ Nutrition Information\n- Not available" := by decide
example : localFormatToMarkdown "" "Cake" "english" (some ["2 cups flour"])
    = "## Cake\n\n### 🛒 Ingredients\n- 2 cups flour\n\n### 🍳 Instructions\n1. \n\n### ℹ️ Nutrition Information\n- Not available" := by decide

/-!
`format_recipe_output` (lines 649-844) and its helpers.
-/

/-- A vector-store payload (`RawRecord`): `dict.get` reads are modelled with
`Option` fields. -/
structure Payload where
  recipe_name : Option String
  steps : Option (List String)
  steps_text : Option String
  text : Option String
  nutrients : Option (List String)
  nutrients_text : Option String
deriving DecidableEq

/-- The all-`None` payload. -/
def emptyPayload : Payload := ⟨none, none, none, none, none, none⟩

/-- Substitution `\b[A-Z][a-z]+\s+[A-Z]\s*$` with `''` (lines 682 and 696):
from the first word-boundary position with a capitalised word, whitespace
and a single capital from which only whitespace remains, everything is
removed. -/
def creditNameCut : Option Char → List Char → List Char
  | _, [] => []
  | prev, c :: t =>
    if (match prev with | none => true | some p => !isWordCh p) && isUpperCh c then
      let low := t.takeWhile isLowerCh
      if low ≠ [] then
        let r1 := t.drop low.length
        let ws := r1.takeWhile isWsPy
        if ws ≠ [] then
          match r1.drop ws.length with
          | d :: rest =>
            if isUpperCh d && rest.all isWsPy then []
            else c :: creditNameCut (some c) t
          | [] => c :: creditNameCut (some c) t
        else c :: creditNameCut (some c) t
      else c :: creditNameCut (some c) t
    else c :: creditNameCut (some c) t

/-- Substitution `^PRE\s+.*$` with `''` in single-line mode (lines 683-684):
if the string starts with the prefix and whitespace, and past the
whitespace run at most a final newline remains un-crossable by `.*`,
everything is removed (a kept final newline survives). -/
def lineCutAtStart (pre : String) (l : List Char) : List Char :=
  if ciStartsWith l pre.data then
    let r := l.drop pre.data.length
    let w := (r.takeWhile isWsPy).length
    if w ≥ 1 && nlTailOk (r.drop w) then
      if (r.drop w).contains '\n' then ['\n'] else []
    else l
  else l

/-- Substitution `cookin['\']?\s*mama` with `''` (line 685), all
occurrences, case-insensitive. -/
def cookinMamaCut : Nat → List Char → List Char
  | 0, l => l
  | _ + 1, [] => []
  | fuel + 1, l@(c :: t) =>
    if ciStartsWith l "cookin".data then
      let r := l.drop 6
      let r2 := if r.head? = some aposC then r.drop 1 else r
      let r3 := r2.dropWhile isWsPy
      if ciStartsWith r3 "mama".data then cookinMamaCut fuel (r3.drop 4)
      else c :: cookinMamaCut fuel t
    else c :: cookinMamaCut fuel t

/-- Instruction-list assembly of `format_recipe_output`, part 1 (lines
670-702): sentence-split and credit-strip the `steps` array when present
and non-empty, else the `steps_text` field, else extract steps from the
raw text. -/
def formatInstructionList (p : Payload) : List String :=
  let name := p.recipe_name.getD "Tanpa Judul"
  match p.steps with
  | some steps =>
    if !steps.isEmpty then
      steps.flatMap (fun step =>
        (sentSplit (pyStrip step)).filterMap (fun sent0 =>
          let s1 := pyStrip sent0
          let s2 := pyStrip ⟨creditNameCut none s1.data⟩
          let s3 := pyStrip ⟨lineCutAtStart "Photo by" s2.data⟩
          let s4 := pyStrip ⟨lineCutAtStart "Recipe by" s3.data⟩
          let s5 := pyStrip ⟨cookinMamaCut (s4.data.length + 1) s4.data⟩
          if pyLen s5 > 15 then some s5 else none))
    else formatInstructionListAux p name
  | none => formatInstructionListAux p name
where
  formatInstructionListAux (p : Payload) (name : String) : List String :=
    match p.steps_text with
    | some st =>
      (splitOnCh ';' st.data).flatMap (fun part =>
        (sentSplit (pyStrip ⟨part⟩)).filterMap (fun sent0 =>
          let s1 := pyStrip sent0
          let s2 := pyStrip ⟨creditNameCut none s1.data⟩
          if pyLen s2 > 15 then some s2 else none))
    | none => extractSteps (p.text.getD "") name none

/-- Junk-word set of the ingredient assembly (lines 713-716). -/
def junkWords : List String :=
  ["first", "second", "third", "fourth", "one", "two", "three", "four", "both",
   "remaining", "unused", "some", "each", "all", "other", "another", "more",
   "oven", "pan", "bowl", "sheet", "heat", "temperature", "degrees", "strips",
   "crust", "lattice", "mound", "pieces", "slices", "mixture", "position"]

/-- Substitution `\b(the|a|an|some|all|both|remaining)\b\s*` with `''`
(lines 727 and 751): drop each such word together with the whitespace that
follows it. -/
def articleSub : Nat → Option Char → List Char → List Char
  | 0, _, l => l
  | _ + 1, _, [] => []
  | fuel + 1, prev, l@(c :: t) =>
    if isWordCh c && (match prev with | none => true | some p => !isWordCh p) then
      let tok := l.takeWhile isWordCh
      let rest := l.drop tok.length
      if ["the", "a", "an", "some", "all", "both", "remaining"].any
          (fun w => lowerL tok = w.data) then
        let rest2 := rest.dropWhile isWsPy
        articleSub fuel ((l.take (l.length - rest2.length)).getLast?) rest2
      else tok ++ articleSub fuel tok.getLast? rest
    else c :: articleSub fuel (some c) t

/-- Phrase clean-up shared by both ingredient-assembly branches
(strip, article removal, whitespace collapse, strip). -/
def phraseCleanup (s : List Char) : String :=
  let p1 := stripL s
  let p2 := articleSub (p1.length + 1) none p1
  ⟨wsCollapseStrip p2⟩

/-- Terminator alternation
`(?:in|into|over|on|to|until|and\s+(?:stir|cook|bring)|,|\.)` of the
cooking-verb pattern (line 747), alternatives in source order (`into` is
unreachable after `in` and kept only to mirror the source). -/
def termAltLen (r3 : List Char) : Option Nat :=
  if ciStartsWith r3 "in".data then some 2
  else if ciStartsWith r3 "into".data then some 4
  else if ciStartsWith r3 "over".data then some 4
  else if ciStartsWith r3 "on".data then some 2
  else if ciStartsWith r3 "to".data then some 2
  else if ciStartsWith r3 "until".data then some 5
  else if ciStartsWith r3 "and".data then
    let w2 := ((r3.drop 3).takeWhile isWsPy).length
    if w2 ≥ 1 then
      let r4 := r3.drop (3 + w2)
      if ciStartsWith r4 "stir".data then some (3 + w2 + 4)
      else if ciStartsWith r4 "cook".data then some (3 + w2 + 4)
      else if ciStartsWith r4 "bring".data then some (3 + w2 + 5)
      else none
    else none
  else if r3.head? = some ',' then some 1
  else if r3.head? = some '.' then some 1
  else none

/-- Full terminator `\s+(?:...)`: a non-empty greedy whitespace run, then
the alternation. -/
def cvTermLen (r : List Char) : Option Nat :=
  let w1 := (r.takeWhile isWsPy).length
  if w1 ≥ 1 then (termAltLen (r.drop w1)).map (w1 + ·) else none

/-- Lazy capture `([^,.;]+?)` followed by the terminator: smallest
non-empty capture after which the terminator matches; returns the capture
and the consumed length including the terminator. -/
def cvCapGo : List Char → List Char → Option (List Char × Nat)
  | _, [] => none
  | acc, c :: rest =>
    if c = ',' || c = '.' || c = ';' then none
    else
      let acc2 := acc ++ [c]
      match cvTermLen rest with
      | some tl => some (acc2, acc2.length + tl)
      | none => cvCapGo acc2 rest

/-- Greedy `\s+` of the cooking-verb pattern, backtracking from the longest
whitespace consumption down to one character. -/
def cvKLoop (r : List Char) : Nat → Option (List Char × Nat)
  | 0 => none
  | k + 1 =>
    match cvCapGo [] (r.drop (k + 1)) with
    | some (g, c) => some (g, k + 1 + c)
    | none => cvKLoop r k

/-- Verb alternation of the cooking-verb pattern (line 710); the verb must
fill a whole word token, so at most one alternative fits. -/
def cookVerbs : List String :=
  ["add", "melt", "mix", "stir", "combine", "beat", "whisk", "fold", "pour",
   "peel", "core", "slice", "dice", "chop", "cut", "spread", "sprinkle",
   "brush", "use", "place", "layer"]

/-- Try the full cooking-verb pattern at the head of `l`; returns group 2
and the full match length. -/
def cvTryHere (l : List Char) : Option (List Char × Nat) :=
  let tok := l.takeWhile isWordCh
  if cookVerbs.any (fun v => lowerL tok = v.data) then
    let r := l.drop tok.length
    match cvKLoop r (r.takeWhile isWsPy).length with
    | some (g, c) => some (g, tok.length + c)
    | none => none
  else none

/-- `re.finditer` of the cooking-verb pattern over one step, collecting
group 2 of each match. -/
def cvFindAll (l : List Char) : List (List Char) :=
  go (l.length + 1) none l
where
  go : Nat → Option Char → List Char → List (List Char)
  | 0, _, _ => []
  | _ + 1, _, [] => []
  | fuel + 1, prev, l@(c :: t) =>
    if (match prev with | none => true | some p => !isWordCh p) then
      match cvTryHere l with
      | some (g, len) => g :: go fuel (l.take len).getLast? (l.drop len)
      | none => go fuel (some c) t
    else go fuel (some c) t

/-- Terminator of the combine pattern `(?:\s+in\s+|\s*;)` (line 720). -/
def combineTermOk (r : List Char) : Bool :=
  let w1 := (r.takeWhile isWsPy).length
  (w1 ≥ 1 && ciStartsWith (r.drop w1) "in".data &&
    ((r.drop (w1 + 2)).takeWhile isWsPy).length ≥ 1) ||
  (r.drop w1).head? = some ';'

/-- Lazy capture `([^;]+?)` of the combine pattern. -/
def combineCapGo : List Char → List Char → Option (List Char)
  | _, [] => none
  | acc, c :: rest =>
    if c = ';' then none
    else
      let acc2 := acc ++ [c]
      if combineTermOk rest then some acc2 else combineCapGo acc2 rest

/-- Greedy `\s+` of the combine pattern. -/
def combineKLoop (r : List Char) : Nat → Option (List Char)
  | 0 => none
  | k + 1 =>
    match combineCapGo [] (r.drop (k + 1)) with
    | some g => some g
    | none => combineKLoop r k

/-- `re.match(r'^(combine|mix)\s+([^;]+?)(?:\s+in\s+|\s*;)', step)`,
returning group 2. -/
def combineMatchGrp (step : List Char) : Option (List Char) :=
  match tryAlt "combine" step with
  | some g => some g
  | none => tryAlt "mix" step
where
  tryAlt (alt : String) (step : List Char) : Option (List Char) :=
    if ciStartsWith step alt.data then
      let r := step.drop alt.data.length
      combineKLoop r (r.takeWhile isWsPy).length
    else none

/-- Separator of the combine-items split `,\s*(?:and\s+)?|\s+and\s+`
(line 724). -/
def combineSplitCut (_ : Option Char) (l : List Char) : Option Nat :=
  match l with
  | ',' :: t =>
    let w := (t.takeWhile isWsPy).length
    let r := t.drop w
    let wAnd := ((r.drop 3).takeWhile isWsPy).length
    if ciStartsWith r "and".data && wAnd ≥ 1 then some (1 + w + 3 + wAnd)
    else some (1 + w)
  | _ =>
    let w := (l.takeWhile isWsPy).length
    let r := l.drop w
    let wAnd := ((r.drop 3).takeWhile isWsPy).length
    if w ≥ 1 && ciStartsWith r "and".data && wAnd ≥ 1 then some (w + 3 + wAnd)
    else none

/-- Ingredient filter of the combine branch (lines 730-742). -/
def combinePartKeep (part : String) : Bool :=
  if pyLen part < 3 then false
  else
    let words := splitWsL (pyLower part).data
    if words.length = 1 &&
        junkWords.any (fun j => words.headD [] = j.data) then false
    else
      (words.filter (fun w =>
        w.length ≥ 3 && !junkWords.any (fun j => w = j.data))) ≠ []

/-- Ingredient filter of the cooking-verb branch (lines 754-770). -/
def verbPhraseKeep (phrase : String) : Bool :=
  if pyLen phrase < 3 then false
  else
    let words := splitWsL (pyLower phrase).data
    if words.length = 1 &&
        junkWords.any (fun j => words.headD [] = j.data) then false
    else if words.all (fun w => junkWords.any (fun j => w = j.data)) then false
    else
      (words.filter (fun w =>
        w.length ≥ 3 && !junkWords.any (fun j => w = j.data))) ≠ []

/-- Ingredient assembly of `format_recipe_output`, part 2 (lines 706-775):
for each instruction step, the combine/mix object list if the combine
pattern matches (the step is then not scanned further), else every
cooking-verb object phrase; phrases are cleaned, filtered and deduplicated
by their lowercase form across the whole instruction list. -/
def extractIngredientsFromInstructions (instructionList : List String) : List String :=
  go [] [] instructionList
where
  addAll (acc seen : List String) (keep : String → Bool) :
      List String → List String × List String
    | [] => (acc, seen)
    | ph :: rest =>
      if keep ph && !seen.contains (pyLower ph) then
        addAll (acc ++ [ph]) (pyLower ph :: seen) keep rest
      else addAll acc seen keep rest
  go (acc seen : List String) : List String → List String
    | [] => acc
    | step :: rest =>
      match combineMatchGrp step.data with
      | some items =>
        let parts := (splitByCutAll combineSplitCut items).map phraseCleanup
        let (acc2, seen2) := addAll acc seen combinePartKeep parts
        go acc2 seen2 rest
      | none =>
        let phrases := (cvFindAll step.data).map (fun g => phraseCleanup (stripL g))
        let (acc2, seen2) := addAll acc seen verbPhraseKeep phrases
        go acc2 seen2 rest

/-- Nutrition-list assembly of `format_recipe_output`, part 3 (lines
777-788). -/
def formatNutritionList (p : Payload) : List String :=
  match p.nutrients with
  | some l =>
    if !l.isEmpty then (l.map pyStrip).filter (fun x => x.data ≠ [])
    else formatNutritionListAux p
  | none => formatNutritionListAux p
where
  formatNutritionListAux (p : Payload) : List String :=
    match p.nutrients_text with
    | some nt =>
      (((splitOnCh ',' nt.data).map stripL).filter (· ≠ [])).map String.mk
    | none => extractNutritionInfo (p.text.getD "")

/-- One section body: a dash-bulleted list when the extraction is
non-empty, else the single placeholder line. -/
def sectionBody (l : List String) (ph : String) : List String :=
  if !l.isEmpty then l.map (fun s => "- " ++ s) else [ph]

/-- Document assembly of `format_recipe_output`, part 4 (lines 790-844):
the emitted lines, in order. -/
def formatRecipeLines (p : Payload) (language : String) : List String :=
  let name := p.recipe_name.getD "Tanpa Judul"
  let instructionList := formatInstructionList p
  let ingredients := extractIngredientsFromInstructions instructionList
  let nutritionList := formatNutritionList p
  if language = "indonesian" then
    ["# " ++ name, "---", "## Ingredients"] ++
    sectionBody ingredients "- (Bahan tidak terdeteksi)" ++
    ["## Instruction"] ++
    sectionBody instructionList "- (Langkah tidak tersedia)" ++
    ["## Nutrition"] ++
    sectionBody nutritionList "- Tidak tersedia"
  else
    ["# " ++ name, "---", "## Ingredients"] ++
    sectionBody ingredients "- (Ingredients not detected)" ++
    ["## Instruction"] ++
    sectionBody instructionList "- (Steps not available)" ++
    ["## Nutrition"] ++
    sectionBody nutritionList "- Not available"

/-- `format_recipe_output(payload, language)` (lines 649-844). -/
def formatRecipeOutput (p : Payload) (language : String) : String :=
  String.intercalate "\n" (formatRecipeLines p language)

/-!
`format_with_gemini` (lines 847-942) and `search_recipes` (lines 1078-1196).
The generative collaborator is a function from a model name and prompt to
either a raised exception or a response text; similarity scores are
rationals.
-/

/-- Language tag interpolated into the prompt. -/
def promptLangTag (language : String) : String :=
  if language = "indonesian" then "INDONESIAN" else "ENGLISH"

/-- The prompt of `format_with_gemini` (lines 868-918), transcribed line by
line. -/
def geminiPrompt (language userQuery recipeName cleanedText ingredientsBlock :
    String) : String :=
  "\nROLE: Professional Chef Assistant\n\nCRITICAL RULES:\n" ++
  "1. **LANGUAGE STRICTNESS**: User query language: " ++ promptLangTag language ++ "\n" ++
  "    - Respond ONLY in this language (STRICT).\n" ++
  "    - Localize ALL headers and content accordingly.\n\n" ++
  "2. **INGREDIENTS EXTRACTION**:\n" ++
  "    - Extract ONLY ingredient nouns/phrases with measurements (e.g., \"1 cup sugar\", \"500 g flour\").\n" ++
  "    - DO NOT include verbs (e.g., \"peel\", \"melt\"), actions, or tools (e.g., \"saucepan\", \"baking sheet\").\n" ++
  "    - Normalize plural to singular where appropriate (e.g., \"apples\" → \"apple\").\n" ++
  "    - If explicit list is missing, infer from text but keep STRICT filtering.\n\n" ++
  "3. **INSTRUCTIONS FORMATTING**:\n" ++
  "   - Create clear, numbered steps (1., 2., 3.)\n" ++
  "   - Remove redundant labels like \"Instructions:\", \"Cara Memasak:\"\n" ++
  "   - Each step should be one clear action\n" ++
  "   - Remove duplicates\n\n" ++
  "4. **NO REDUNDANCY**:\n" ++
  "   - Never repeat section titles\n" ++
  "   - Never duplicate steps\n" ++
  "   - Keep it clean and concise\n\n" ++
  "5. **STRICTNESS**:\n" ++
  "    - Temperature low; avoid creative paraphrasing.\n" ++
  "    - Prefer shortest correct phrasing.\n\n" ++
  "USER QUERY: \"" ++ userQuery ++ "\"\n" ++
  "RECIPE NAME: \"" ++ recipeName ++ "\"\n" ++
  "RAW DATA: \"" ++ cleanedText ++ "\"\n" ++
  "RAW INGREDIENTS: \"" ++ ingredientsBlock ++ "\"\n\n" ++
  "OUTPUT FORMAT (" ++ promptLangTag language ++ "):\n\n" ++
  "## " ++ recipeName ++ "\n\n" ++
  "### 🛒 " ++ (if language = "indonesian" then "Bahan-bahan" else "Ingredients") ++ "\n" ++
  "- [List all ingredients with measurements]\n\n" ++
  "### 🍳 " ++ (if language = "indonesian" then "Cara Memasak" else "Instructions") ++ "\n" ++
  "1. [First step]\n2. [Second step]\n...\n\n" ++
  "### ℹ️ " ++ (if language = "indonesian" then "Informasi Nutrisi" else "Nutrition Information") ++ "\n" ++
  "- [If available, otherwise write \"" ++
  (if language = "indonesian" then "Tidak tersedia" else "Not available") ++ "\"]\n\n" ++
  "IMPORTANT: Respond ONLY in " ++ promptLangTag language ++ "!\n"

/-- The ingredients block interpolated into the prompt (lines 861-866). -/
def ingredientsBlockOf : Option (List String) → String
  | some l =>
    if l.isEmpty then ""
    else String.intercalate "\n" (l.map (fun i => "- " ++ i))
  | none => ""

/-- The model names tried in order (line 921). -/
def triedModels : List String := ["gemini-1.5-pro", "gemini-1.5-flash", "gemini-pro"]

/-- The model loop of `format_with_gemini` (lines 923-942): a raised
exception moves to the next model; a response whose stripped text contains
`##` returns the local formatter output (the generated text is discarded);
a response without `##` also moves on; exhaustion falls back to the local
formatter with the same ingredients list. -/
def geminiAttempt (collab : String → String → Except Unit String)
    (prompt rawText recipeName language : String)
    (ingredientsList : Option (List String)) : List String → String
  | [] => localFormatToMarkdown rawText recipeName language ingredientsList
  | m :: ms =>
    match collab m prompt with
    | .error _ => geminiAttempt collab prompt rawText recipeName language ingredientsList ms
    | .ok t =>
      if containsSubS (pyStrip t) "##" then
        localFormatToMarkdown rawText recipeName language ingredientsList
      else geminiAttempt collab prompt rawText recipeName language ingredientsList ms

/-- `format_with_gemini(raw_text, recipe_name, user_query,
ingredients_list)` (lines 847-942), parameterised by the availability flag
and the collaborator. -/
def formatWithGemini (genaiAvailable : Bool)
    (collab : String → String → Except Unit String)
    (rawText recipeName userQuery : String)
    (ingredientsList : Option (List String)) : String :=
  let language := detectLanguage userQuery
  if !genaiAvailable then localFormatToMarkdown rawText recipeName language none
  else
    let cleanedText := cleanGarbageText rawText recipeName
    let prompt := geminiPrompt language userQuery recipeName cleanedText
      (ingredientsBlockOf ingredientsList)
    geminiAttempt collab prompt rawText recipeName language ingredientsList
      triedModels

/-- One ranked point returned by the vector-store collaborator. -/
structure ScoredPoint where
  score : ℚ
  payload : Payload
deriving DecidableEq

/-- One entry of the caller-facing result of `search_recipes`. -/
structure SearchHit where
  recipe_name : String
  text : String
  score : ℚ
  not_found : Bool
deriving DecidableEq

/-- Not-found message, Indonesian locale (lines 1101-1112). -/
def notFoundTextIndo : String :=
  "## Maaf, Resep Tidak Ditemukan 😔\n\n" ++
  "Resep yang Anda cari tidak ada di database kami.\n\n" ++
  "### 💡 Saran:\n" ++
  "- Coba kata kunci yang berbeda\n" ++
  "- Periksa ejaan resep\n" ++
  "- Cari resep serupa yang mungkin tersedia\n\n" ++
  "**Mau saya rekomendasikan resep populer lainnya?** 🍽️"

/-- Not-found message, English locale (lines 1114-1125). -/
def notFoundTextEng : String :=
  "## Sorry, Recipe Not Found 😔\n\n" ++
  "The recipe you" ++ aposS ++ "re looking for is not in our database.\n\n" ++
  "### 💡 Suggestions:\n" ++
  "- Try different keywords\n" ++
  "- Check the recipe spelling\n" ++
  "- Search for similar recipes\n\n" ++
  "**Would you like me to recommend other popular recipes?** 🍽️"

/-- Text before the interpolated query in the Indonesian weak-match
message. -/
def weakIndoPre : String :=
  "## Hmm, Tidak Ada yang Cocok 🤔\n\n" ++
  "Saya menemukan beberapa resep, tapi tidak ada yang cocok dengan **" ++ aposS

/-- Text after the interpolated query in the Indonesian weak-match
message. -/
def weakIndoSuf : String :=
  aposS ++ "**.\n\n" ++
  "### 💡 Coba:\n" ++
  "- Gunakan nama resep yang lebih spesifik\n" ++
  "- Cari berdasarkan bahan utama\n" ++
  "- Tanyakan kategori makanan (misal: " ++ aposS ++ "kue" ++ aposS ++ ", " ++
  aposS ++ "ayam" ++ aposS ++ ", " ++ aposS ++ "pasta" ++ aposS ++ ")\n\n" ++
  "**Atau mau saya carikan resep populer?** 🍳"

/-- Weak-match message, Indonesian locale (lines 1135-1146); the query is
interpolated, the score is not. -/
def weakTextIndo (query : String) : String := weakIndoPre ++ query ++ weakIndoSuf

/-- Text before the interpolated query in the English weak-match message. -/
def weakEngPre : String :=
  "## Hmm, No Match Found 🤔\n\n" ++
  "I found some recipes, but none match **" ++ aposS

/-- Text after the interpolated query in the English weak-match message. -/
def weakEngSuf : String :=
  aposS ++ "** well.\n\n" ++
  "### 💡 Try:\n" ++
  "- Use more specific recipe names\n" ++
  "- Search by main ingredient\n" ++
  "- Ask for food categories (e.g., " ++ aposS ++ "cake" ++ aposS ++ ", " ++
  aposS ++ "chicken" ++ aposS ++ ", " ++ aposS ++ "pasta" ++ aposS ++ ")\n\n" ++
  "**Or would you like popular recipe suggestions?** 🍳"

/-- Weak-match message, English locale (lines 1148-1159); the query is
interpolated, the score is not. -/
def weakTextEng (query : String) : String := weakEngPre ++ query ++ weakEngSuf

/-- `search_recipes(query, top_k)` (lines 1078-1196) on the points returned
by the vector-store collaborator: the empty result and weak-top-score
branches produce a single localized not-found entry; otherwise every point
is formatted in the detected language and returned in order. -/
def searchRecipes (query : String) (points : List ScoredPoint) : List SearchHit :=
  match points with
  | [] =>
    if detectLanguage query = "indonesian" then
      [⟨"Tidak Ditemukan", notFoundTextIndo, 0, true⟩]
    else
      [⟨"Not Found", notFoundTextEng, 0, true⟩]
  | p0 :: _ =>
    if p0.score < mkRat 3 10 then
      if detectLanguage query = "indonesian" then
        [⟨"Tidak Relevan", weakTextIndo query, p0.score, true⟩]
      else
        [⟨"Not Relevant", weakTextEng query, p0.score, true⟩]
    else
      points.map (fun pt =>
        ⟨pt.payload.recipe_name.getD "Tanpa Judul",
         formatRecipeOutput pt.payload (detectLanguage query), pt.score, false⟩)

-- Sanity checks.
example : (searchRecipes "resep kue" []).map (·.recipe_name) = ["Tidak Ditemukan"] := by decide
example : (searchRecipes "chocolate" []).map (·.recipe_name) = ["Not Found"] := by decide
example :
    searchRecipes "chocolate" [⟨mkRat 1 4, emptyPayload⟩]
      = [⟨"Not Relevant", weakTextEng "chocolate", mkRat 1 4, true⟩] := by decide
example :
    (searchRecipes "chocolate" [⟨mkRat 3 10, emptyPayload⟩]).map (·.not_found) = [false] := by decide
example :
    formatWithGemini false (fun _ _ => Except.error ()) "" "Cake" "hello" (some ["2 cups flour"])
      = localFormatToMarkdown "" "Cake" "english" none := by decide

/-!
Helper lemmas shared by the claim theorems.
-/

/-- The payload used to refute claim C1: an instruction sentence that is
also emitted, lower-cased, as an ingredient. -/
def c1Payload : Payload :=
  ⟨none,
   some ["Add fresh strawberries and cream cheese until done.",
         "Fresh strawberries and cream cheese"],
   none, none, none, none⟩

/-- The payload used to refute claim C7: two instruction steps whose
cooking-verb objects are `fresh butter` and `butter`. -/
def c7Payload : Payload :=
  ⟨none,
   some ["Melt fresh butter in pan now okay.",
         "Add butter to pan gently now."],
   none, none, none, none⟩

/-- Elements of a keyed deduplication come from the input list and their
keys avoid the seen set. -/
theorem dedupByKey_mem (key : List Char → List Char) :
    ∀ (ls seen : List (List Char)) (x : List Char),
      x ∈ dedupByKey key seen ls → x ∈ ls ∧ key x ∉ seen
  | [], _, x, hx => by simp [dedupByKey] at hx
  | l :: ls, seen, x, hx => by
    by_cases h : seen.contains (key l)
    · have hx' := hx
      simp only [dedupByKey, if_pos h] at hx'
      obtain ⟨h1, h2⟩ := dedupByKey_mem key ls seen x hx'
      exact ⟨List.mem_cons_of_mem _ h1, h2⟩
    · have hx' := hx
      simp only [dedupByKey, if_neg h] at hx'
      rcases List.mem_cons.mp hx' with rfl | hmem
      · refine ⟨List.mem_cons_self _ _, ?_⟩
        simpa using h
      · obtain ⟨h1, h2⟩ := dedupByKey_mem key ls (key l :: seen) x hmem
        refine ⟨List.mem_cons_of_mem _ h1, ?_⟩
        intro hc
        exact h2 (List.mem_cons_of_mem _ hc)

/-- A keyed deduplication yields pairwise-distinct keys. -/
theorem dedupByKey_pairwise (key : List Char → List Char) :
    ∀ (ls seen : List (List Char)),
      (dedupByKey key seen ls).Pairwise (fun a b => key a ≠ key b)
  | [], _ => by simp [dedupByKey]
  | l :: ls, seen => by
    by_cases h : seen.contains (key l)
    · simpa only [dedupByKey, if_pos h] using dedupByKey_pairwise key ls seen
    · simp only [dedupByKey, if_neg h]
      refine List.Pairwise.cons ?_ (dedupByKey_pairwise key ls (key l :: seen))
      intro x hx
      have := (dedupByKey_mem key ls (key l :: seen) x hx).2
      intro he
      exact this (he ▸ List.mem_cons_self _ _)

/-- Deduplication is the identity on a list whose keys are pairwise
distinct and avoid the seen set. -/
theorem dedupByKey_eq_self (key : List Char → List Char) :
    ∀ (ls seen : List (List Char)),
      ls.Pairwise (fun a b => key a ≠ key b) → (∀ x ∈ ls, key x ∉ seen) →
      dedupByKey key seen ls = ls
  | [], _, _, _ => rfl
  | l :: ls, seen, hp, hs => by
    have hnotin : ¬ seen.contains (key l) := by
      simpa using hs l (List.mem_cons_self _ _)
    simp only [dedupByKey, if_neg hnotin]
    congr 1
    refine dedupByKey_eq_self key ls (key l :: seen) hp.of_cons ?_
    intro x hx
    simp only [List.mem_cons]
    rintro (he | hseen)
    · exact (List.rel_of_pairwise_cons hp hx) he.symm
    · exact hs x (List.mem_cons_of_mem _ hx) hseen

/-- A list starts with itself followed by anything. -/
theorem isPrefixOf_append_self (l1 l2 : List Char) :
    l1.isPrefixOf (l1 ++ l2) = true := by
  rw [List.isPrefixOf_iff_prefix]
  exact ⟨l2, rfl⟩

/-- Substring containment holds for any middle factor. -/
theorem containsSubL_factor (a x b : List Char) :
    containsSubL (a ++ x ++ b) x = true := by
  induction a with
  | nil =>
    cases x with
    | nil => cases b <;> simp [containsSubL]
    | cons c t =>
      simp only [List.nil_append, containsSubL, Bool.or_eq_true]
      exact Or.inl (isPrefixOf_append_self _ _)
  | cons c a ih =>
    cases x with
    | nil => cases (a ++ [] ++ b) <;> simp_all [containsSubL]
    | cons d t =>
      simp only [List.cons_append, containsSubL, Bool.or_eq_true]
      exact Or.inr ih

/-!
Claim theorems.
-/

/-- Claim C1: for every payload and locale, no line under the Instructions
section of the formatted document equals, case-insensitively, a line under
its Ingredients section.  The claim fails on the code: at `c1Payload` the
Ingredients section contains `- fresh strawberries and cream cheese` while
the Instruction section contains `- Fresh strawberries and cream cheese`,
the same line up to case, contradicting the function's own stated contract
of strict section separation. -/
theorem c1_no_bleed_violated :
    formatRecipeLines c1Payload "english" =
      ["# Tanpa Judul", "---", "## Ingredients",
       "- fresh strawberries and cream cheese",
       "## Instruction",
       "- Add fresh strawberries and cream cheese until done.",
       "- Fresh strawberries and cream cheese",
       "## Nutrition", "- Not available"] ∧
    pyLower "- Fresh strawberries and cream cheese" =
      pyLower "- fresh strawberries and cream cheese" :=
  ⟨by decide, by decide⟩

/-- Claim C2: with a non-empty point list, `search_recipes` takes the weak
branch exactly when the top score is strictly below 0.30 (`mkRat 3 10`);
at exactly 0.30 every returned entry is a formatted hit with `not_found`
false. -/
theorem c2_weak_threshold (q : String) (p : ScoredPoint) (rest : List ScoredPoint) :
    (p.score < mkRat 3 10 →
      searchRecipes q (p :: rest) =
        [⟨(if detectLanguage q = "indonesian" then "Tidak Relevan" else "Not Relevant"),
          (if detectLanguage q = "indonesian" then weakTextIndo q else weakTextEng q),
          p.score, true⟩]) ∧
    (¬ p.score < mkRat 3 10 →
      searchRecipes q (p :: rest) =
        (p :: rest).map (fun pt =>
          ⟨pt.payload.recipe_name.getD "Tanpa Judul",
           formatRecipeOutput pt.payload (detectLanguage q), pt.score, false⟩)) ∧
    (p.score = mkRat 3 10 →
      ∀ e ∈ searchRecipes q (p :: rest), e.not_found = false) := by
  refine ⟨?_, ?_, ?_⟩
  · intro h
    simp only [searchRecipes, if_pos h]
    by_cases hq : detectLanguage q = "indonesian" <;> simp [hq]
  · intro h
    simp only [searchRecipes, if_neg h]
  · intro h e he
    have hn : ¬ p.score < mkRat 3 10 := by rw [h]; exact lt_irrefl _
    simp only [searchRecipes, if_neg hn] at he
    obtain ⟨pt, _, rfl⟩ := List.mem_map.mp he
    rfl

/-- Witness for C2: a singleton result with score exactly 0.30 is formatted
as a hit, and one with score 0.25 is the weak entry. -/
theorem c2_weak_threshold_witness :
    searchRecipes "chocolate" [⟨mkRat 1 4, emptyPayload⟩] =
      [⟨(if detectLanguage "chocolate" = "indonesian" then "Tidak Relevan" else "Not Relevant"),
        (if detectLanguage "chocolate" = "indonesian" then weakTextIndo "chocolate"
         else weakTextEng "chocolate"),
        mkRat 1 4, true⟩] ∧
    ∀ e ∈ searchRecipes "chocolate" [⟨mkRat 3 10, emptyPayload⟩], e.not_found = false :=
  ⟨(c2_weak_threshold "chocolate" ⟨mkRat 1 4, emptyPayload⟩ []).1 (by decide),
   (c2_weak_threshold "chocolate" ⟨mkRat 3 10, emptyPayload⟩ []).2.2 (by decide)⟩

/-- Claim C8: with an empty point list, `search_recipes` returns exactly one
entry with `not_found` true, score 0, and name and message in the detected
locale (`Tidak Ditemukan` for an Indonesian query). -/
theorem c8_empty_not_found (q : String) :
    searchRecipes q [] =
      [⟨(if detectLanguage q = "indonesian" then "Tidak Ditemukan" else "Not Found"),
        (if detectLanguage q = "indonesian" then notFoundTextIndo else notFoundTextEng),
        0, true⟩] := by
  simp only [searchRecipes]
  by_cases hq : detectLanguage q = "indonesian" <;> simp [hq]

/-- The model loop always returns the local formatter output for the same
ingredients list, whatever the collaborator does: an exception or a
response without `##` moves on, a response with `##` discards the
generated text in favour of the local formatter, and exhaustion falls back
to it. -/
theorem geminiAttempt_eq_local (collab : String → String → Except Unit String)
    (prompt rawText recipeName language : String)
    (ingredientsList : Option (List String)) :
    ∀ ms, geminiAttempt collab prompt rawText recipeName language ingredientsList ms =
      localFormatToMarkdown rawText recipeName language ingredientsList
  | [] => rfl
  | m :: ms => by
    simp only [geminiAttempt]
    cases collab m prompt with
    | error e =>
      exact geminiAttempt_eq_local collab prompt rawText recipeName language
        ingredientsList ms
    | ok t =>
      by_cases h : containsSubS (pyStrip t) "##" = true
      · simp [h]
      · simp only [Bool.not_eq_true] at h
        simp [h]
        exact geminiAttempt_eq_local collab prompt rawText recipeName language
          ingredientsList ms

/-- Claim C3 counterexample: when the model library is unavailable,
`format_with_gemini` drops the provided ingredients list, so its output
differs from the heuristic formatter applied to the same ingredients
list. -/
theorem c3_unavailable_drops_ingredients :
    formatWithGemini false (fun _ _ => Except.error ()) "" "Cake" "hello"
        (some ["2 cups flour"]) ≠
      localFormatToMarkdown "" "Cake" (detectLanguage "hello")
        (some ["2 cups flour"]) := by
  decide

/-- Claim C3 (amended): when the model library is available and every
generative call raises, `format_with_gemini` returns byte-for-byte the
heuristic formatter's output for the same raw text, recipe name, detected
locale and ingredients list; when the library is unavailable it returns
the heuristic formatter's output with no ingredients list. -/
theorem c3_fallback_amended (collab : String → String → Except Unit String)
    (raw name q : String) (ings : Option (List String))
    (_h : ∀ m p, collab m p = Except.error ()) :
    formatWithGemini true collab raw name q ings =
      localFormatToMarkdown raw name (detectLanguage q) ings ∧
    formatWithGemini false collab raw name q ings =
      localFormatToMarkdown raw name (detectLanguage q) none := by
  constructor
  · simp only [formatWithGemini]
    exact geminiAttempt_eq_local collab _ raw name (detectLanguage q) ings triedModels
  · rfl

/-- Witness for the amended C3 at a concrete input with an
always-raising collaborator. -/
theorem c3_fallback_amended_witness :
    formatWithGemini true (fun _ _ => Except.error ()) "" "Cake" "hello"
        (some ["2 cups flour"]) =
      localFormatToMarkdown "" "Cake" (detectLanguage "hello")
        (some ["2 cups flour"]) ∧
    formatWithGemini false (fun _ _ => Except.error ()) "" "Cake" "hello"
        (some ["2 cups flour"]) =
      localFormatToMarkdown "" "Cake" (detectLanguage "hello") none :=
  c3_fallback_amended (fun _ _ => Except.error ()) "" "Cake" "hello"
    (some ["2 cups flour"]) (fun _ _ => rfl)

/-- Claim C4: whatever the collaborator returns — including a successful
response containing section headers — the string returned by
`format_with_gemini` is the heuristic `local_format_to_markdown` output
(with the caller's ingredients list when the library is available, and
with none otherwise); the generated text is never returned. -/
theorem c4_always_heuristic_output (avail : Bool)
    (collab : String → String → Except Unit String)
    (raw name q : String) (ings : Option (List String)) :
    formatWithGemini avail collab raw name q ings =
      localFormatToMarkdown raw name (detectLanguage q)
        (if avail then ings else none) := by
  cases avail
  · rfl
  · simp only [formatWithGemini, if_true]
    exact geminiAttempt_eq_local collab _ raw name (detectLanguage q) ings triedModels

/-- Claim C9 counterexample: for the query `chocolate` with best score
0.25, the weak entry carries the score in its `score` field, but its
message text contains no digit at all, so it cannot include the literal
score value. -/
theorem c9_message_lacks_score :
    searchRecipes "chocolate" [⟨mkRat 1 4, emptyPayload⟩] =
      [⟨"Not Relevant", weakTextEng "chocolate", mkRat 1 4, true⟩] ∧
    (weakTextEng "chocolate").data.all (fun c => !isDigitCh c) = true :=
  ⟨by decide, by decide⟩

/-- Claim C9 (amended): when the best score is strictly below 0.30, the
single weak entry carries that score in its `score` field and its `text`
is a fixed locale-specific message that mentions the query (the score is
not interpolated into the message). -/
theorem c9_weak_entry (q : String) (p : ScoredPoint) (rest : List ScoredPoint)
    (h : p.score < mkRat 3 10) :
    searchRecipes q (p :: rest) =
      [⟨(if detectLanguage q = "indonesian" then "Tidak Relevan" else "Not Relevant"),
        (if detectLanguage q = "indonesian" then weakTextIndo q else weakTextEng q),
        p.score, true⟩] ∧
    containsSubS
      (if detectLanguage q = "indonesian" then weakTextIndo q else weakTextEng q)
      q = true := by
  have key : ∀ (a b : String), containsSubS (a ++ q ++ b) q = true := by
    intro a b
    show containsSubL (a ++ q ++ b).data q.data = true
    rw [String.data_append, String.data_append]
    exact containsSubL_factor a.data q.data b.data
  constructor
  · simp only [searchRecipes, if_pos h]
    by_cases hq : detectLanguage q = "indonesian" <;> simp [hq]
  · by_cases hq : detectLanguage q = "indonesian" <;>
      simp only [hq, if_true, if_false, reduceIte] <;>
      first
        | exact key weakIndoPre weakIndoSuf
        | exact key weakEngPre weakEngSuf

/-- Witness for the amended C9 at a concrete weak score. -/
theorem c9_weak_entry_witness :
    searchRecipes "pasta" [⟨mkRat 1 5, emptyPayload⟩] =
      [⟨(if detectLanguage "pasta" = "indonesian" then "Tidak Relevan" else "Not Relevant"),
        (if detectLanguage "pasta" = "indonesian" then weakTextIndo "pasta"
         else weakTextEng "pasta"),
        mkRat 1 5, true⟩] ∧
    containsSubS
      (if detectLanguage "pasta" = "indonesian" then weakTextIndo "pasta"
       else weakTextEng "pasta")
      "pasta" = true :=
  c9_weak_entry "pasta" ⟨mkRat 1 5, emptyPayload⟩ [] (by decide)

/-- Claim C10 counterexample: `extract_steps` keeps a sentence of exactly
8 tokens containing the unit token `cup`, although the claim says every
sentence of at most 8 tokens with a unit token is discarded (the code's
cutoff is 6 tokens). -/
theorem c10_eight_token_unit_sentence_kept :
    extractSteps "Gently pour one cup flour into bowl now." "Cake" none =
      ["Gently pour one cup flour into bowl now."] ∧
    numTokens "Gently pour one cup flour into bowl now." = 8 ∧
    unitSearch "Gently pour one cup flour into bowl now." = true :=
  ⟨by decide, by decide, by decide⟩

/-- Claim C10 (amended): every step returned by `extract_steps` is neither
a sentence of at most 6 tokens containing a measurement-unit token nor a
sentence matching the nutrition-hint pattern, and the returned steps are
pairwise distinct under lowercasing (first occurrence wins).
(`local_format_to_markdown` uses the 8-token variant of the unit filter.) -/
theorem c10_step_filter (raw name : String) (ings : Option (List String)) :
    (extractSteps raw name ings).Pairwise (fun a b => pyLower a ≠ pyLower b) ∧
    ∀ s ∈ extractSteps raw name ings,
      ¬(numTokens s ≤ 6 ∧ unitSearch s = true) ∧ nutritionSearch s = false := by
  constructor
  · show ((dedupByKey lowerL [] _).map String.mk).Pairwise _
    refine List.pairwise_map.mpr ?_
    refine (dedupByKey_pairwise lowerL _ []).imp ?_
    intro a b hne heq
    exact hne (congrArg String.data heq)
  · intro s hs
    simp only [extractSteps] at hs
    obtain ⟨x, hx, rfl⟩ := List.mem_map.mp hs
    have hx2 := (dedupByKey_mem lowerL _ [] x hx).1
    obtain ⟨t, ht, rfl⟩ := List.mem_map.mp hx2
    obtain ⟨s0, _, heq⟩ := List.mem_filterMap.mp ht
    split_ifs at heq with h1 h2 h3
    all_goals cases heq
    constructor
    · intro hc
      exact h2 (by simpa using hc)
    · simpa using h3


/-- An absent association-list lookup means the key is not among the
stored keys. -/
theorem assocFind_none (acc : List (String × String)) (key : String)
    (h : assocFind acc key = none) : key ∉ acc.map Prod.fst := by
  induction acc with
  | nil => simp
  | cons kv t ih =>
    rw [assocFind] at h
    split_ifs at h with hk
    simp only [List.map_cons, List.mem_cons]
    rintro (he | hm)
    · exact hk he.symm
    · exact ih h hm

/-- A successful association-list lookup returns a stored pair. -/
theorem assocFind_some (acc : List (String × String)) (key v : String)
    (h : assocFind acc key = some v) : (key, v) ∈ acc := by
  induction acc with
  | nil => simp [assocFind] at h
  | cons kv t ih =>
    rw [assocFind] at h
    split_ifs at h with hk
    · injection h with hv
      subst hv
      subst hk
      simp
    · exact List.mem_cons_of_mem _ (ih h)

/-- Updating an association list leaves the key sequence unchanged. -/
theorem assocUpdate_keys (acc : List (String × String)) (key nv : String) :
    (assocUpdate acc key nv).map Prod.fst = acc.map Prod.fst := by
  induction acc with
  | nil => rfl
  | cons kv t ih =>
    rw [assocUpdate]
    split_ifs with hk
    · simp
    · simp [ih]

/-- Every pair of an updated association list is an old pair or the new
binding. -/
theorem assocUpdate_mem (acc : List (String × String)) (key nv : String) :
    ∀ kv ∈ assocUpdate acc key nv, kv ∈ acc ∨ kv = (key, nv) := by
  induction acc with
  | nil => simp [assocUpdate]
  | cons kv0 t ih =>
    intro kv hkv
    rw [assocUpdate] at hkv
    split_ifs at hkv with hk
    · rcases List.mem_cons.mp hkv with rfl | hm
      · right; rw [hk]
      · left; exact List.mem_cons_of_mem _ hm
    · rcases List.mem_cons.mp hkv with rfl | hm
      · left; exact List.mem_cons_self _ _
      · rcases ih kv hm with h | h
        · left; exact List.mem_cons_of_mem _ h
        · right; exact h

/-- Appending a fresh binding whose value reduces to its key preserves the
consolidation invariant. -/
theorem assocAppend_sound (acc : List (String × String)) (key c : String)
    (hk : (acc.map Prod.fst).Nodup) (hv : ∀ kv ∈ acc, coreName kv.2 = kv.1)
    (hnotin : key ∉ acc.map Prod.fst) (hc : coreName c = key) :
    ((acc ++ [(key, c)]).map Prod.fst).Nodup ∧
      ∀ kv ∈ acc ++ [(key, c)], coreName kv.2 = kv.1 := by
  constructor
  · rw [List.map_append]
    refine List.Nodup.append hk (by simp) ?_
    simpa using hnotin
  · intro kv hkv
    rcases List.mem_append.mp hkv with hm | hm
    · exact hv kv hm
    · simp only [List.mem_singleton] at hm
      subst hm
      exact hc

/-- Updating a stored binding with a value that reduces to its key
preserves the consolidation invariant. -/
theorem assocUpdate_sound (acc : List (String × String)) (key nv : String)
    (hk : (acc.map Prod.fst).Nodup) (hv : ∀ kv ∈ acc, coreName kv.2 = kv.1)
    (hnv : coreName nv = key) :
    ((assocUpdate acc key nv).map Prod.fst).Nodup ∧
      ∀ kv ∈ assocUpdate acc key nv, coreName kv.2 = kv.1 := by
  constructor
  · rw [assocUpdate_keys]; exact hk
  · intro kv hkv
    rcases assocUpdate_mem _ _ _ kv hkv with hm | hm
    · exact hv kv hm
    · subst hm
      exact hnv

set_option maxHeartbeats 1000000 in
/-- One consolidation step preserves the loop invariant: stored keys stay
pairwise distinct and every stored value reduces to its key under
`core_name`. -/
theorem consolidateStep_sound (acc : List (String × String)) (cand : String)
    (hk : (acc.map Prod.fst).Nodup) (hv : ∀ kv ∈ acc, coreName kv.2 = kv.1) :
    ((consolidateStep acc cand).map Prod.fst).Nodup ∧
      ∀ kv ∈ consolidateStep acc cand, coreName kv.2 = kv.1 := by
  cases hfind : assocFind acc (coreName ⟨trimNonAlnum (pyStrip cand).data⟩) with
  | none =>
    simp only [consolidateStep, hfind]
    split_ifs
    all_goals first
      | exact assocAppend_sound acc _ _ hk hv
          (assocFind_none acc _ hfind) rfl
      | exact ⟨hk, hv⟩
  | some existing =>
    have hex : coreName existing = coreName ⟨trimNonAlnum (pyStrip cand).data⟩ :=
      hv _ (assocFind_some acc _ _ hfind)
    have hup : ∀ nv : String,
        coreName nv = coreName ⟨trimNonAlnum (pyStrip cand).data⟩ →
        ((assocUpdate acc (coreName ⟨trimNonAlnum (pyStrip cand).data⟩)
            nv).map Prod.fst).Nodup ∧
          ∀ kv ∈ assocUpdate acc (coreName ⟨trimNonAlnum (pyStrip cand).data⟩) nv,
            coreName kv.2 = kv.1 :=
      fun nv hnv => assocUpdate_sound acc _ _ hk hv hnv
    simp only [consolidateStep, hfind]
    split_ifs
    all_goals first
      | exact hup ⟨trimNonAlnum (pyStrip cand).data⟩ rfl
      | exact hup existing hex
      | exact ⟨hk, hv⟩

/-- The invariant carried through the whole consolidation loop. -/
theorem consolidateGo_sound :
    ∀ (cands : List String) (acc : List (String × String)),
      (acc.map Prod.fst).Nodup → (∀ kv ∈ acc, coreName kv.2 = kv.1) →
      ((consolidateGo acc cands).map Prod.fst).Nodup ∧
        ∀ kv ∈ consolidateGo acc cands, coreName kv.2 = kv.1
  | [], _, hk, hv => ⟨hk, hv⟩
  | cand :: rest, acc, hk, hv => by
    obtain ⟨hk2, hv2⟩ := consolidateStep_sound acc cand hk hv
    exact consolidateGo_sound rest (consolidateStep acc cand) hk2 hv2

/-- The consolidated ingredient list has pairwise-distinct core names. -/
theorem consolidate_pairwise (cands : List String) :
    (consolidate cands).Pairwise (fun a b => coreName a ≠ coreName b) := by
  obtain ⟨hk, hv⟩ := consolidateGo_sound cands [] (by simp) (by simp)
  refine List.pairwise_map.mpr ?_
  have hfst : (consolidateGo [] cands).Pairwise (fun a b => a.1 ≠ b.1) :=
    List.pairwise_map.mp hk
  refine hfst.imp_of_mem ?_
  intro a b ha hb hne
  rw [hv a ha, hv b hb]
  exact hne

/-- Claim C7, counterexample: the ingredient list that
`format_recipe_output` assembles from the instruction steps is not
consolidated by core name — on `c7Payload` it contains both `fresh butter`
and `butter`, two distinct entries with the same core name `butter`. -/
theorem c7_core_conflict_counterexample :
    extractIngredientsFromInstructions (formatInstructionList c7Payload) =
        ["fresh butter", "butter"] ∧
      coreName "fresh butter" = coreName "butter" ∧
      "fresh butter" ≠ "butter" :=
  ⟨by decide, by decide, by decide⟩

/-- Claim C7, amended: the core-name uniqueness invariant holds for the
list produced by the consolidation pass of `extract_ingredients_from_text`;
whenever the extractor returns that consolidated list (it falls back to the
raw candidate list only when consolidation left nothing), no two entries of
its result share a core name. -/
theorem c7_consolidated_core_distinct (text : String)
    (h : extractIngredientsFromText text =
        consolidate (preConsolidationCandidates text)) :
    (extractIngredientsFromText text).Pairwise
      (fun a b => coreName a ≠ coreName b) := by
  rw [h]
  exact consolidate_pairwise _

/-- Claim C7, witness: on a two-ingredient text the extractor returns its
consolidated list, and that list has pairwise-distinct core names. -/
theorem c7_consolidated_core_distinct_witness :
    (extractIngredientsFromText "1 kg butter\n2 kg sugar").Pairwise
      (fun a b => coreName a ≠ coreName b) :=
  c7_consolidated_core_distinct "1 kg butter\n2 kg sugar" (by decide)

/-- A section body is the single placeholder line or a non-empty
dash-bulleted list. -/
theorem sectionBody_cases (l : List String) (ph : String) :
    sectionBody l ph = [ph] ∨
      (sectionBody l ph ≠ [] ∧
        ∀ x ∈ sectionBody l ph, ("- ").data.isPrefixOf x.data = true) := by
  cases l with
  | nil => left; rfl
  | cons s t =>
    right
    have he : sectionBody (s :: t) ph = (s :: t).map (fun s0 => "- " ++ s0) := rfl
    refine ⟨by rw [he]; simp, ?_⟩
    intro x hx
    rw [he] at hx
    obtain ⟨s0, _, rfl⟩ := List.mem_map.mp hx
    rw [show ("- " ++ s0).data = ("- ").data ++ s0.data from rfl]
    exact isPrefixOf_append_self _ _

/-- Claim C5, counterexample: the section headers of the formatted document
are not locale-specific — the document formatted for the Indonesian locale
carries exactly the same `##` header lines as the English one, including
the English label `## Ingredients`. -/
theorem c5_header_locale_counterexample :
    ((formatRecipeLines emptyPayload "indonesian").filter
        (fun l => ("## ").data.isPrefixOf l.data) =
      (formatRecipeLines emptyPayload "english").filter
        (fun l => ("## ").data.isPrefixOf l.data)) ∧
    "## Ingredients" ∈ formatRecipeLines emptyPayload "indonesian" :=
  ⟨by decide, by decide⟩

/-- Claim C5, amended: for every payload and locale the document has
exactly three sections in fixed order — Ingredients, Instructions,
Nutrition — but under the fixed English headers `## Ingredients`,
`## Instruction`, `## Nutrition` for both locales; each section body is
either a non-empty dash-bulleted list or the single locale-specific
placeholder line of that section. -/
theorem c5_fixed_sections (p : Payload) (language : String) :
    ∃ bIng bIns bNut : List String,
      formatRecipeLines p language =
        ["# " ++ p.recipe_name.getD "Tanpa Judul", "---", "## Ingredients"] ++
          bIng ++ ["## Instruction"] ++ bIns ++ ["## Nutrition"] ++ bNut ∧
      ∀ b ∈ [(bIng, if language = "indonesian" then "- (Bahan tidak terdeteksi)"
                else "- (Ingredients not detected)"),
             (bIns, if language = "indonesian" then "- (Langkah tidak tersedia)"
                else "- (Steps not available)"),
             (bNut, if language = "indonesian" then "- Tidak tersedia"
                else "- Not available")],
        b.1 = [b.2] ∨ (b.1 ≠ [] ∧
          ∀ x ∈ b.1, ("- ").data.isPrefixOf x.data = true) := by
  by_cases hl : language = "indonesian"
  · have hl2 : (language = "indonesian") = True := eq_true hl
    refine ⟨sectionBody
        (extractIngredientsFromInstructions (formatInstructionList p))
        "- (Bahan tidak terdeteksi)",
      sectionBody (formatInstructionList p) "- (Langkah tidak tersedia)",
      sectionBody (formatNutritionList p) "- Tidak tersedia", ?_, ?_⟩
    · simp only [formatRecipeLines, hl2, if_true]
    · intro b hb
      simp only [hl2, if_true, List.mem_cons, List.not_mem_nil, or_false] at hb
      rcases hb with rfl | rfl | rfl
      all_goals exact sectionBody_cases _ _
  · have hl2 : (language = "indonesian") = False := eq_false hl
    refine ⟨sectionBody
        (extractIngredientsFromInstructions (formatInstructionList p))
        "- (Ingredients not detected)",
      sectionBody (formatInstructionList p) "- (Steps not available)",
      sectionBody (formatNutritionList p) "- Not available", ?_, ?_⟩
    · simp only [formatRecipeLines, hl2, if_false]
    · intro b hb
      simp only [hl2, if_false, List.mem_cons, List.not_mem_nil, or_false] at hb
      rcases hb with rfl | rfl | rfl
      all_goals exact sectionBody_cases _ _

theorem dropEndWhile_eq_rdrop (p : Char → Bool) (l : List Char) :
    dropEndWhile p l = l.rdropWhile p := rfl

/-- The head remaining after `dropWhile` falsifies the predicate. -/
theorem head_mem_of_head_dropWhile (p : Char → Bool) :
    ∀ l : List Char, ∀ c ∈ (l.dropWhile p).head?, p c = false := by
  intro l
  induction l with
  | nil => simp
  | cons a t ih =>
    intro c hc
    rw [List.dropWhile_cons] at hc
    split_ifs at hc with ha
    · exact ih c hc
    · simp only [List.head?_cons, Option.mem_def, Option.some.injEq] at hc
      subst hc
      exact Bool.not_eq_true _ ▸ ha

/-- A list whose head falsifies the predicate survives `dropWhile`. -/
theorem dropWhile_eq_self_of_head (p : Char → Bool) (l : List Char)
    (h : ∀ c ∈ l.head?, p c = false) : l.dropWhile p = l := by
  cases l with
  | nil => rfl
  | cons a t =>
    have ha := h a rfl
    rw [List.dropWhile_cons, if_neg (by simp [ha])]

/-- A list whose last element falsifies the predicate survives `rdropWhile`. -/
theorem rdrop_eq_self_of_getLast (p : Char → Bool) (l : List Char)
    (h : ∀ c ∈ l.getLast?, p c = false) : l.rdropWhile p = l := by
  rw [List.rdropWhile, dropWhile_eq_self_of_head p l.reverse
    (by simpa only [List.head?_reverse] using h), List.reverse_reverse]

/-- The head of a non-empty prefix is the head of the whole list. -/
theorem isPre_head_mem {l1 l2 : List Char} (h : l1 <+: l2) :
    ∀ c ∈ l1.head?, c ∈ l2.head? := by
  obtain ⟨t, rfl⟩ := h
  cases l1 with
  | nil => simp
  | cons a l => simp

/-- A stripped list does not start with whitespace. -/
theorem stripL_head_false (l : List Char) :
    ∀ c ∈ (stripL l).head?, isWsPy c = false := by
  intro c hc
  have hpre : (l.dropWhile isWsPy).rdropWhile isWsPy <+: l.dropWhile isWsPy :=
    List.rdropWhile_prefix _ _
  exact head_mem_of_head_dropWhile isWsPy l c
    (isPre_head_mem hpre c (by simpa [stripL, dropEndWhile_eq_rdrop] using hc))

/-- A stripped list does not end with whitespace. -/
theorem stripL_getLast_false (l : List Char) :
    ∀ c ∈ (stripL l).getLast?, isWsPy c = false := by
  intro c hc
  rw [stripL, dropEndWhile_eq_rdrop, List.rdropWhile,
    List.getLast?_reverse] at hc
  exact head_mem_of_head_dropWhile isWsPy _ c hc

/-- Stripping is the identity on a list with no whitespace at either end. -/
theorem stripL_eq_self (l : List Char)
    (h1 : ∀ c ∈ l.head?, isWsPy c = false)
    (h2 : ∀ c ∈ l.getLast?, isWsPy c = false) : stripL l = l := by
  rw [stripL, dropWhile_eq_self_of_head isWsPy l h1, dropEndWhile_eq_rdrop,
    rdrop_eq_self_of_getLast isWsPy l h2]

/-- Stripping is idempotent. -/
theorem stripL_idem (l : List Char) : stripL (stripL l) = stripL l :=
  stripL_eq_self _ (stripL_head_false l) (stripL_getLast_false l)

/-- Stripping only removes characters. -/
theorem mem_of_mem_stripL {c : Char} {l : List Char} (h : c ∈ stripL l) :
    c ∈ l := by
  rw [stripL, dropEndWhile_eq_rdrop] at h
  exact (List.dropWhile_suffix isWsPy).subset
    ((List.rdropWhile_prefix _ _).subset h)

/-- Pieces of a separator split never contain the separator. -/
theorem splitOnCh_not_mem (sep : Char) :
    ∀ l : List Char, ∀ x ∈ splitOnCh sep l, sep ∉ x := by
  intro l
  induction l with
  | nil =>
    intro x hx
    rw [splitOnCh] at hx
    rcases List.mem_singleton.mp hx with rfl
    simp
  | cons c cs ih =>
    intro x hx
    rw [splitOnCh] at hx
    split_ifs at hx with hcs
    · rcases List.mem_cons.mp hx with rfl | hx2
      · simp
      · exact ih x hx2
    · revert hx
      cases hrec : splitOnCh sep cs with
      | nil =>
        intro hx
        rcases List.mem_singleton.mp hx with rfl
        intro hmem
        rcases List.mem_singleton.mp hmem with rfl
        exact hcs rfl
      | cons pp ps =>
        intro hx
        rcases List.mem_cons.mp hx with rfl | hx2
        · intro hmem
          rcases List.mem_cons.mp hmem with rfl | hmem2
          · exact hcs rfl
          · exact ih pp (hrec ▸ List.mem_cons_self _ _) hmem2
        · exact ih x (hrec ▸ List.mem_cons_of_mem _ hx2)

/-- Splitting a separator-free list yields that single piece. -/
theorem splitOnCh_no_sep (sep : Char) (l : List Char) (h : sep ∉ l) :
    splitOnCh sep l = [l] := by
  induction l with
  | nil => rfl
  | cons c cs ih =>
    have hc : ¬ c = sep := fun he => h (he ▸ List.mem_cons_self _ _)
    rw [splitOnCh, if_neg hc, ih (fun hm => h (List.mem_cons_of_mem _ hm))]

/-- Splitting peels one separator-free piece before a separator. -/
theorem splitOnCh_append_sep (sep : Char) (l rest : List Char) (h : sep ∉ l) :
    splitOnCh sep (l ++ sep :: rest) = l :: splitOnCh sep rest := by
  induction l with
  | nil => simp [splitOnCh]
  | cons c cs ih =>
    have hc : ¬ c = sep := fun he => h (he ▸ List.mem_cons_self _ _)
    rw [List.cons_append, splitOnCh, if_neg hc,
      ih (fun hm => h (List.mem_cons_of_mem _ hm))]

/-- Joining a list whose first piece is non-empty is non-empty. -/
theorem join_ne_nil (sep : Char) (q : List Char) (r : List (List Char))
    (hq : q ≠ []) : joinWithCh sep (q :: r) ≠ [] := by
  cases r with
  | nil => simpa [joinWithCh] using hq
  | cons r0 r1 =>
    rw [show joinWithCh sep (q :: r0 :: r1) = q ++ sep :: joinWithCh sep (r0 :: r1)
      from rfl]
    intro hcontra
    exact hq (List.append_eq_nil.mp hcontra).1

/-- Splitting undoes joining separator-free pieces. -/
theorem splitOnCh_join (sep : Char) :
    ∀ L : List (List Char), L ≠ [] → (∀ x ∈ L, sep ∉ x) →
      splitOnCh sep (joinWithCh sep L) = L
  | [], hL, _ => absurd rfl hL
  | [p], _, h => by
    rw [joinWithCh, splitOnCh_no_sep sep p (h p (List.mem_singleton.mpr rfl))]
  | p :: q :: r, _, h => by
    rw [show joinWithCh sep (p :: q :: r) = p ++ sep :: joinWithCh sep (q :: r)
        from rfl,
      splitOnCh_append_sep sep p _ (h p (List.mem_cons_self _ _)),
      splitOnCh_join sep (q :: r) (List.cons_ne_nil _ _)
        (fun x hx => h x (List.mem_cons_of_mem _ hx))]

/-- The head of a join of non-empty pieces is the head of some piece. -/
theorem join_head_cases (sep : Char) :
    ∀ L : List (List Char), (∀ x ∈ L, x ≠ []) →
      ∀ c ∈ (joinWithCh sep L).head?, ∃ x ∈ L, c ∈ x.head?
  | [], _, c, hc => by simp [joinWithCh] at hc
  | [p], _, c, hc => ⟨p, List.mem_singleton.mpr rfl, hc⟩
  | p :: q :: r, hne, c, hc => by
    rw [show joinWithCh sep (p :: q :: r) = p ++ sep :: joinWithCh sep (q :: r)
      from rfl] at hc
    cases hp : p with
    | nil => exact absurd hp (hne p (List.mem_cons_self _ _))
    | cons a p2 =>
      subst hp
      refine ⟨a :: p2, List.mem_cons_self _ _, ?_⟩
      simpa using hc

/-- The last element of a join of non-empty pieces is the last element of some piece. -/
theorem join_getLast_cases (sep : Char) :
    ∀ L : List (List Char), (∀ x ∈ L, x ≠ []) →
      ∀ c ∈ (joinWithCh sep L).getLast?, ∃ x ∈ L, c ∈ x.getLast?
  | [], _, c, hc => by simp [joinWithCh] at hc
  | [p], _, c, hc => ⟨p, List.mem_singleton.mpr rfl, hc⟩
  | p :: q :: r, hne, c, hc => by
    rw [show joinWithCh sep (p :: q :: r) = p ++ sep :: joinWithCh sep (q :: r)
      from rfl] at hc
    have hj : joinWithCh sep (q :: r) ≠ [] :=
      join_ne_nil sep q r (hne q (List.mem_cons_of_mem _ (List.mem_cons_self _ _)))
    rw [List.getLast?_append_cons] at hc
    cases hj2 : joinWithCh sep (q :: r) with
    | nil => exact absurd hj2 hj
    | cons j0 j1 =>
      rw [hj2, List.getLast?_cons_cons, ← hj2] at hc
      obtain ⟨x, hx, hcx⟩ := join_getLast_cases sep (q :: r)
        (fun y hy => hne y (List.mem_cons_of_mem _ hy)) c hc
      exact ⟨x, List.mem_cons_of_mem _ hx, hcx⟩

/-- Lines entering the deduplication stage are non-empty, stripped and newline-free. -/
theorem dlLines_mem (l : List Char) (x : List Char)
    (hx : x ∈ ((splitOnCh '\n' l).map stripL).filter (· ≠ [])) :
    x ≠ [] ∧ stripL x = x ∧ '\n' ∉ x := by
  obtain ⟨hm, honly⟩ := List.mem_filter.mp hx
  obtain ⟨piece, hp, rfl⟩ := List.mem_map.mp hm
  refine ⟨of_decide_eq_true honly, stripL_idem piece, ?_⟩
  intro hmem
  exact splitOnCh_not_mem '\n' l piece hp (mem_of_mem_stripL hmem)

/-- Mapping `stripL` over already-stripped lines is the identity. -/
theorem map_stripL_id (D : List (List Char)) (h : ∀ x ∈ D, stripL x = x) :
    D.map stripL = D := by
  induction D with
  | nil => rfl
  | cons a t ih =>
    rw [List.map_cons, h a (List.mem_cons_self _ _),
      ih (fun x hx => h x (List.mem_cons_of_mem _ hx))]

/-- The deduplication stage is the identity on a join of good, key-distinct lines. -/
theorem dedupLinesStage_join (D : List (List Char))
    (hmem : ∀ x ∈ D, x ≠ [] ∧ stripL x = x ∧ '\n' ∉ x)
    (hpair : D.Pairwise (fun a b =>
      stripLeadingNum (lowerL a) ≠ stripLeadingNum (lowerL b))) :
    dedupLinesStageL (joinWithCh '\n' D) = joinWithCh '\n' D := by
  cases D with
  | nil => rfl
  | cons d ds =>
    show joinWithCh '\n' (dedupByKey (fun x => stripLeadingNum (lowerL x)) []
      (((splitOnCh '\n' (joinWithCh '\n' (d :: ds))).map stripL).filter
        (· ≠ []))) = _
    rw [splitOnCh_join '\n' (d :: ds) (List.cons_ne_nil _ _)
        (fun x hx => (hmem x hx).2.2),
      map_stripL_id (d :: ds) (fun x hx => (hmem x hx).2.1),
      List.filter_eq_self.mpr (fun x hx => decide_eq_true ((hmem x hx).1)),
      dedupByKey_eq_self _ _ _ hpair (fun x _ => List.not_mem_nil _)]

/-- The output of the deduplication stage is stripped. -/
theorem dedupLinesStage_strip (l : List Char) :
    stripL (dedupLinesStageL l) = dedupLinesStageL l := by
  have hmem : ∀ x ∈ dedupByKey (fun x => stripLeadingNum (lowerL x)) []
      (((splitOnCh '\n' l).map stripL).filter (· ≠ [])),
      x ≠ [] ∧ stripL x = x ∧ '\n' ∉ x := fun x hx =>
    dlLines_mem l x (dedupByKey_mem _ _ _ x hx).1
  apply stripL_eq_self
  · intro c hc
    obtain ⟨x, hx, hcx⟩ := join_head_cases '\n'
      (dedupByKey (fun x => stripLeadingNum (lowerL x)) []
        (((splitOnCh '\n' l).map stripL).filter (· ≠ [])))
      (fun y hy => (hmem y hy).1) c hc
    exact stripL_head_false x c (by rw [(hmem x hx).2.1]; exact hcx)
  · intro c hc
    obtain ⟨x, hx, hcx⟩ := join_getLast_cases '\n'
      (dedupByKey (fun x => stripLeadingNum (lowerL x)) []
        (((splitOnCh '\n' l).map stripL).filter (· ≠ [])))
      (fun y hy => (hmem y hy).1) c hc
    exact stripL_getLast_false x c (by rw [(hmem x hx).2.1]; exact hcx)

/-- The deduplication stage is idempotent. -/
theorem dedupLinesStage_idem (l : List Char) :
    dedupLinesStageL (dedupLinesStageL l) = dedupLinesStageL l :=
  dedupLinesStage_join _
    (fun x hx => dlLines_mem l x (dedupByKey_mem _ _ _ x hx).1)
    (dedupByKey_pairwise _ _ _)

/-- Specialization of strippedness to a packed deduplication output. -/
theorem mk_dedup_strip (y : List Char) :
    stripL (String.mk (dedupLinesStageL y)).data =
      (String.mk (dedupLinesStageL y)).data :=
  dedupLinesStage_strip y

/-- Specialization of deduplication idempotence to a packed output. -/
theorem mk_dedup_idem (y : List Char) :
    dedupLinesStageL (String.mk (dedupLinesStageL y)).data =
      (String.mk (dedupLinesStageL y)).data :=
  dedupLinesStage_idem y

/-- The output of the normalizer is stripped. -/
theorem cleanGarbage_strip (text title : String) :
    stripL (cleanGarbageText text title).data =
      (cleanGarbageText text title).data :=
  mk_dedup_strip (stripL (creditCutL (stripL (labelCutL
    (if ciStartsWith (stripL text.data) title.data then
      stripSetL [' ', '.', ':', '-']
        ((stripL text.data).drop title.data.length)
    else stripL text.data)))))

/-- The output of the normalizer is a fixed point of the deduplication stage. -/
theorem cleanGarbage_dedup (text title : String) :
    dedupLinesStageL (cleanGarbageText text title).data =
      (cleanGarbageText text title).data :=
  mk_dedup_idem (stripL (creditCutL (stripL (labelCutL
    (if ciStartsWith (stripL text.data) title.data then
      stripSetL [' ', '.', ':', '-']
        ((stripL text.data).drop title.data.length)
    else stripL text.data)))))


/-- Claim C6, counterexample: the normalizer is not idempotent — when its
output still begins with the title, a second pass strips the title again:
cleaning `CakeCake hello` with title `Cake` once yields `Cake hello`,
cleaning that result again yields `hello`. -/
theorem c6_idempotence_counterexample :
    cleanGarbageText "CakeCake hello" "Cake" = "Cake hello" ∧
      cleanGarbageText (cleanGarbageText "CakeCake hello" "Cake") "Cake" =
        "hello" ∧
      cleanGarbageText (cleanGarbageText "CakeCake hello" "Cake") "Cake" ≠
        cleanGarbageText "CakeCake hello" "Cake" :=
  ⟨by decide, by decide, by decide⟩

/-- Claim C6, amended: the normalizer is idempotent on every input whose
cleaned output no longer starts, case-insensitively, with the title and is
a fixed point of the section-label cut and of the credit cut; the
remaining stages — stripping and line deduplication — are idempotent
unconditionally, so a second pass returns its input unchanged. -/
theorem c6_conditional_idempotent (text title : String)
    (h1 : ciStartsWith (cleanGarbageText text title).data title.data = false)
    (h2 : labelCutL (cleanGarbageText text title).data =
      (cleanGarbageText text title).data)
    (h3 : creditCutL (cleanGarbageText text title).data =
      (cleanGarbageText text title).data) :
    cleanGarbageText (cleanGarbageText text title) title =
      cleanGarbageText text title := by
  have hs := cleanGarbage_strip text title
  have hd := cleanGarbage_dedup text title
  show String.mk (dedupLinesStageL (stripL (creditCutL (stripL (labelCutL
    (if ciStartsWith (stripL (cleanGarbageText text title).data) title.data then
      stripSetL [' ', '.', ':', '-']
        ((stripL (cleanGarbageText text title).data).drop title.data.length)
    else stripL (cleanGarbageText text title).data)))))) =
    cleanGarbageText text title
  rw [hs, h1, if_neg Bool.false_ne_true, h2, hs, h3, hs, hd]

/-- Claim C6, witness: on `hello world` with title `zzz` the three side
conditions hold and cleaning twice equals cleaning once. -/
theorem c6_conditional_idempotent_witness :
    cleanGarbageText (cleanGarbageText "hello world" "zzz") "zzz" =
      cleanGarbageText "hello world" "zzz" :=
  c6_conditional_idempotent "hello world" "zzz" (by decide) (by decide)
    (by decide)
